import Mathlib

/-!
gt-home: the Fibonacci HTTP service (`main.go`)

A shallow embedding of `Fibonacci`, `getFibs`, `printFibsPlaintext`,
`printFibsToJson` and `RecoveryMiddleware`, and the properties of them that
the specification states.

Modelling conventions.

* `big.Int` is `Int` (unbounded); a Go `int` argument is an `Int`, and where
  the 64-bit range matters (`strconv.Atoi`) the range check is explicit.
* A slice is a `List`; indexing is checked (`sliceGet`, `sliceSet` return
  `none` out of bounds, where Go panics), so a function that indexes returns
  an `Option`.
* The allocation `make([]big.Int, n)` is checked as the runtime checks it
  (`makeSlice` returns `none` where `runtime.makeslice` panics with "len out of
  range": more than `maxAlloc` bytes); the sizes are those of a 64-bit platform.
  Memory that runs out below that limit ends the process and is not modelled.
* The `for` loop of `Fibonacci` is a recursion on fuel that tests the loop
  condition itself; running out of fuel is `none`.
* `http.ResponseWriter` is an explicit state (`ResponseWriter`), every handler
  is a function from the state and the request to an `Outcome`: the new state
  and, when the handler panicked, the panic value.
* The package variable `format` is a parameter of `getFibs`.
* Calls to `glog` only log and are left out. `w.Write` is taken to succeed, as
  it does on `httptest.ResponseRecorder`.
* The library functions (`strconv`, `strings`, `encoding/json`, `net/http`)
  are modelled from their documented behaviour.
-/

namespace GtHome

/-! ## The Fibonacci numbers, as the specification defines them -/

/-- The i-th Fibonacci number: `F 0 = 0`, `F 1 = 1`, `F k = F (k-1) + F (k-2)`. -/
def F : Nat → Int
  | 0 => 0
  | 1 => 1
  | k + 2 => F (k + 1) + F k

/-! ## Slices -/

/-- Read `s[i]`: `none` stands for the index-out-of-range panic. -/
def sliceGet (s : List Int) (i : Int) : Option Int :=
  if 0 ≤ i ∧ i < (s.length : Int) then s[i.toNat]? else none

/-- Write `s[i] = v`: `none` stands for the index-out-of-range panic. -/
def sliceSet (s : List Int) (i : Int) (v : Int) : Option (List Int) :=
  if 0 ≤ i ∧ i < (s.length : Int) then some (s.set i.toNat v) else none

/-- The size in bytes of one `big.Int` on a 64-bit platform: a `bool` padded to
a word and a slice header of three words. -/
def bigIntSize : Int := 32

/-- The constant `maxAlloc` of the Go runtime on a 64-bit platform with 48-bit
heap addresses (as linux/amd64): 2^48 bytes. -/
def maxAlloc : Int := 281474976710656

/-- The call `make([]big.Int, n)`, as `runtime.makeslice` checks it: `none`
stands for the panic "makeslice: len out of range", raised when the length is
negative or the n elements take more than `maxAlloc` bytes; otherwise the
result is n zero values. -/
def makeSlice (n : Int) : Option (List Int) :=
  if n < 0 ∨ n * bigIntSize > maxAlloc then none
  else some (List.replicate n.toNat (0 : Int))

/-! ## `Fibonacci` -/

/-- The loop `for i := 2; i < n; i++ { fib[i].Add(&fib[i-1], &fib[i-2]) }`,
started at `i` with the slice `fib`. Each unit of fuel pays for one test of the
loop condition. -/
def fibLoop : Nat → Int → Int → List Int → Option (List Int)
  | 0, _, _, _ => none
  | fuel + 1, n, i, fib =>
    if i < n then do
      let a ← sliceGet fib (i - 1)
      let b ← sliceGet fib (i - 2)
      let fib ← sliceSet fib i (a + b)
      fibLoop fuel n (i + 1) fib
    else some fib

/-- The function `Fibonacci(n int) []big.Int`. -/
def Fibonacci (n : Int) : Option (List Int) :=
  if n ≤ 0 then some []
  else do
    let fib ← makeSlice n
    let fib ← sliceSet fib 0 0
    let fib ← if n > 1 then sliceSet fib 1 1 else some fib
    fibLoop n.toNat n 2 fib

/-! ## Library functions -/

/-- The constant `nLimit`. -/
def nLimit : Int := 10000

/-- The method `(*big.Int).String`: the decimal representation, with a leading
minus sign for a negative number. -/
def bigIntString (x : Int) : String :=
  match x with
  | Int.ofNat m => Nat.repr m
  | Int.negSucc m => "-" ++ Nat.repr (m + 1)

/-- The function `strconv.Itoa`. -/
def Itoa (n : Int) : String := bigIntString n

/-- The value of a decimal digit, `none` for any other character. -/
def digitVal (c : Char) : Option Nat :=
  if 48 ≤ c.toNat ∧ c.toNat ≤ 57 then some (c.toNat - 48) else none

/-- Read a run of decimal digits onto the accumulator; `none` at the first
character that is not a digit. -/
def parseDigits : List Char → Nat → Option Nat
  | [], acc => some acc
  | c :: cs, acc =>
    match digitVal c with
    | none => none
    | some d => parseDigits cs (acc * 10 + d)

/-- The function `strconv.Atoi` on a 64-bit platform: an optional sign, then
one or more decimal digits, the value within the range of `int`. `none` is a
non-nil error (syntax or range). -/
def Atoi (s : String) : Option Int :=
  let parts : Bool × List Char :=
    match s.data with
    | '-' :: rest => (true, rest)
    | '+' :: rest => (false, rest)
    | cs => (false, cs)
  match parts.2 with
  | [] => none
  | ds =>
    match parseDigits ds 0 with
    | none => none
    | some v =>
      let x : Int := if parts.1 then -(v : Int) else (v : Int)
      if -(2 : Int) ^ 63 ≤ x ∧ x ≤ (2 : Int) ^ 63 - 1 then some x else none

/-- The function `strings.Join`: nothing for no element, else the first
element followed by the separator and the next element, for each next one. -/
def Join (elems : List String) (sep : String) : String :=
  match elems with
  | [] => ""
  | e :: rest => rest.foldl (fun acc s => acc ++ sep ++ s) e

/-- A lower-case hexadecimal digit. -/
def hexDigit (d : Nat) : Char :=
  if d < 10 then Char.ofNat (48 + d) else Char.ofNat (87 + d)

/-- How `encoding/json` writes one character of a string, with HTML escaping
on (the default of an `Encoder`). -/
def jsonEscapeChar (c : Char) : List Char :=
  if c = '"' then ['\\', '"']
  else if c = '\\' then ['\\', '\\']
  else if c = '\n' then ['\\', 'n']
  else if c = '\r' then ['\\', 'r']
  else if c = '\t' then ['\\', 't']
  else if c.toNat < 32 ∨ c = '<' ∨ c = '>' ∨ c = '&' then
    ['\\', 'u', '0', '0', hexDigit (c.toNat / 16), hexDigit (c.toNat % 16)]
  else if c.toNat = 0x2028 then ['\\', 'u', '2', '0', '2', '8']
  else if c.toNat = 0x2029 then ['\\', 'u', '2', '0', '2', '9']
  else [c]

/-- The JSON encoding of a string: quoted, each character escaped as needed. -/
def jsonString (s : String) : String :=
  ⟨'"' :: (s.data.flatMap jsonEscapeChar ++ ['"'])⟩

/-- What `(*json.Encoder).Encode` writes for a non-nil `[]string`: the array,
without insignificant space, followed by a newline character. -/
def jsonEncodeStrings (elems : List String) : String :=
  "[" ++ Join (elems.map jsonString) "," ++ "]" ++ "\n"

/-! ## The response writer -/

/-- The type `http.Header`, one value per key. -/
abbrev Header := List (String × String)

/-- The method `Header.Set`: replace the value of the key. -/
def Header.Set (h : Header) (key value : String) : Header :=
  (key, value) :: h.filter (fun kv => kv.1 != key)

/-- The method `Header.Get`: the value of the key, `""` when absent. -/
def Header.Get (h : Header) (key : String) : String :=
  (h.lookup key).getD ""

/-- The state of an `http.ResponseWriter`, as `httptest.ResponseRecorder`
keeps it: the header map the handler edits, whether the status line has been
written, the status code, the headers as they were when the status line was
written (the ones the response carries), and the body written so far. -/
structure ResponseWriter where
  header : Header
  wroteHeader : Bool
  code : Nat
  sentHeader : Header
  body : String
  deriving DecidableEq, Repr

/-- The function `httptest.NewRecorder`: nothing written, the code 200 that a
response has when the handler never sets one. -/
def NewRecorder : ResponseWriter :=
  { header := [], wroteHeader := false, code := 200, sentHeader := [], body := "" }

/-- The method `WriteHeader`: the first call fixes the status code and the
headers of the response; a later call changes nothing. -/
def ResponseWriter.WriteHeader (w : ResponseWriter) (code : Nat) : ResponseWriter :=
  if w.wroteHeader then w
  else { w with wroteHeader := true, code := code, sentHeader := w.header }

/-- The method `Write`: writes the status line with code 200 first if none
was written, then appends to the body. -/
def ResponseWriter.Write (w : ResponseWriter) (data : String) : ResponseWriter :=
  let w1 := if w.wroteHeader then w else w.WriteHeader 200
  { w1 with body := w1.body ++ data }

/-- The call `w.Header().Set(key, value)`. -/
def ResponseWriter.HeaderSet (w : ResponseWriter) (key value : String) : ResponseWriter :=
  { w with header := Header.Set w.header key value }

/-- The content type of the response. -/
def ResponseWriter.contentType (w : ResponseWriter) : String :=
  Header.Get w.sentHeader "Content-Type"

def StatusOK : Nat := 200
def StatusNotFound : Nat := 404
def StatusUnprocessableEntity : Nat := 422
def StatusInternalServerError : Nat := 500

/-- The function `http.Error`: sets the two headers, writes the status line,
writes the message and a newline. -/
def httpError (w : ResponseWriter) (error : String) (code : Nat) : ResponseWriter :=
  let w := w.HeaderSet "Content-Type" "text/plain; charset=utf-8"
  let w := w.HeaderSet "X-Content-Type-Options" "nosniff"
  let w := w.WriteHeader code
  w.Write (error ++ "\n")

/-! ## Requests and handlers -/

/-- The part of `*http.Request` the handler reads: `r.URL.Path`, and
`r.URL.Query()`, the map from a parameter name to its values in order. -/
structure Request where
  path : String
  query : List (String × List String)
  deriving DecidableEq, Repr

/-- What a handler leaves behind: the response writer, and the panic value (a
non-nil value, as `recover` returns it) if it panicked. -/
structure Outcome where
  w : ResponseWriter
  fault : Option String
  deriving DecidableEq, Repr

/-- The type `http.HandlerFunc`. -/
abbrev HandlerFunc := ResponseWriter → Request → Outcome

/-- The function `printFibsPlaintext`. -/
def printFibsPlaintext (w : ResponseWriter) (nums : List Int) : ResponseWriter :=
  let w := w.HeaderSet "Content-Type" "text/plain"
  let strNums := nums.map bigIntString
  w.Write (Join strNums ", ")

/-- The function `printFibsToJson`. -/
def printFibsToJson (w : ResponseWriter) (nums : List Int) : ResponseWriter :=
  let w := w.HeaderSet "Content-Type" "application/json"
  let jsonNums := nums.map bigIntString
  w.Write (jsonEncodeStrings jsonNums)

/-- The body of `getFibs`, with the sequence generator it calls as the
parameter `gen`. -/
def getFibsWith (gen : Int → Option (List Int)) (format : String) : HandlerFunc :=
  fun w r =>
    if r.path ≠ "/" then
      ⟨w.WriteHeader StatusNotFound, none⟩
    else
      let usage : Outcome :=
        ⟨(w.WriteHeader StatusUnprocessableEntity).Write
          "Error: n url parameter is missing, pass it with ?n=<positive integer>", none⟩
      let outOfRange : Outcome :=
        ⟨(w.WriteHeader StatusUnprocessableEntity).Write
          ("Error: n must be a positive integer between 0 and " ++ Itoa nLimit), none⟩
      match r.query.lookup "n" with
      | none => usage
      | some [] => usage
      | some (p0 :: _) =>
        if p0.utf8ByteSize < 1 then usage
        else
          match Atoi p0 with
          | none => outOfRange
          | some n =>
            if n < 0 ∨ n > nLimit then outOfRange
            else
              match gen n with
              | none => ⟨w, some "runtime error: index out of range"⟩
              | some nums =>
                if format = "json" then ⟨printFibsToJson w nums, none⟩
                else ⟨printFibsPlaintext w nums, none⟩

/-- The handler `getFibs`, for a value of the package variable `format`. -/
def getFibs (format : String) : HandlerFunc :=
  getFibsWith Fibonacci format

/-- The function `RecoveryMiddleware`: run `next`; if it panicked, recover and
call `http.Error(w, "Internal Server Error", 500)`. -/
def RecoveryMiddleware (next : HandlerFunc) : HandlerFunc :=
  fun w r =>
    match next w r with
    | ⟨w1, some _⟩ => ⟨httpError w1 "Internal Server Error" StatusInternalServerError, none⟩
    | ⟨w1, none⟩ => ⟨w1, none⟩

/-! ## Two handlers that panic, to run the recovery middleware on -/

/-- A handler that writes part of a body, then panics. -/
def writeThenPanic : HandlerFunc :=
  fun w _ => ⟨w.Write "0, 1", some "boom"⟩

/-- A handler that panics before it writes anything. -/
def panicFirst : HandlerFunc :=
  fun w _ => ⟨w, some "boom"⟩

/-! ## Decimal numerals, as the specification reads them -/

/-- The ten decimal digits. -/
def decimalDigits : List Char := ['0', '1', '2', '3', '4', '5', '6', '7', '8', '9']

/-- The natural number that a run of decimal digits denotes, most significant
digit first. -/
def decimalValue (ds : List Char) : Nat :=
  ds.foldl (fun acc c => acc * 10 + (c.toNat - '0'.toNat)) 0

/-- The integer that a sign (none, '+' or '-') and a run of decimal digits
denote. -/
def denoted (sign ds : List Char) : Int :=
  if sign = ['-'] then -(decimalValue ds : Int) else (decimalValue ds : Int)

/-! ## Lemmas on slices and on the loop of `Fibonacci` -/

/-- An element the list has at a natural index is what `sliceGet` reads there. -/
theorem sliceGet_of_getElem {s : List Int} {i : Nat} {v : Int} (h : s[i]? = some v) :
    sliceGet s (i : Int) = some v := by
  have hlt : i < s.length := by
    rcases Nat.lt_or_ge i s.length with hl | hl
    · exact hl
    · rw [List.getElem?_eq_none hl] at h; cases h
  have hc : 0 ≤ (i : Int) ∧ (i : Int) < (s.length : Int) := ⟨by omega, by omega⟩
  simp [sliceGet, hc, h]

/-- Within bounds `sliceSet` is `List.set`. -/
theorem sliceSet_of_lt {s : List Int} {i : Nat} (v : Int) (h : i < s.length) :
    sliceSet s (i : Int) v = some (s.set i v) := by
  have hc : 0 ≤ (i : Int) ∧ (i : Int) < (s.length : Int) := ⟨by omega, by omega⟩
  simp [sliceSet, hc]

/-- The loop invariant: entered at `i = k ≥ 2` with a slice of length `N` that
holds `F j` at every index `j < k`, and with fuel for the tests that remain,
the loop returns a slice of length `N` that holds `F j` at every index. -/
theorem fibLoop_spec (N : Nat) : ∀ (fuel k : Nat) (fib : List Int),
    fib.length = N → 2 ≤ k → N ≤ fuel + k →
    (∀ j, j < k → j < N → fib[j]? = some (F j)) →
    ∃ out, fibLoop (fuel + 1) (N : Int) (k : Int) fib = some out ∧ out.length = N ∧
      ∀ j, j < N → out[j]? = some (F j) := by
  intro fuel
  induction fuel with
  | zero =>
    intro k fib hlen hk hfuel hinv
    have hnot : ¬ ((k : Int) < (N : Int)) := by omega
    refine ⟨fib, ?_, hlen, ?_⟩
    · simp [fibLoop, hnot]
    · intro j hj
      exact hinv j (by omega) hj
  | succ fuel ih =>
    intro k fib hlen hk hfuel hinv
    by_cases hkN : k < N
    · have hlt : ((k : Int) < (N : Int)) := by omega
      have ha : sliceGet fib ((k : Int) - 1) = some (F (k - 1)) := by
        have := sliceGet_of_getElem (hinv (k - 1) (by omega) (by omega))
        have e : ((k - 1 : Nat) : Int) = (k : Int) - 1 := by omega
        rwa [e] at this
      have hb : sliceGet fib ((k : Int) - 2) = some (F (k - 2)) := by
        have := sliceGet_of_getElem (hinv (k - 2) (by omega) (by omega))
        have e : ((k - 2 : Nat) : Int) = (k : Int) - 2 := by omega
        rwa [e] at this
      have hs := sliceSet_of_lt (F (k - 1) + F (k - 2)) (show k < fib.length by omega)
      have hF : F (k - 1) + F (k - 2) = F k := by
        obtain ⟨m, rfl⟩ : ∃ m, k = m + 2 := ⟨k - 2, by omega⟩
        simp [F]
      obtain ⟨out, hout, hl, hall⟩ := ih (k + 1) (fib.set k (F k))
        (by simp [hlen]) (by omega) (by omega) (by
          intro j hj hjN
          by_cases hjk : j = k
          · subst hjk
            simp [List.getElem?_set, hlen, hjN]
          · rw [List.getElem?_set_ne (by omega)]
            exact hinv j (by omega) hjN)
      rw [hF] at hs
      refine ⟨out, ?_, hl, hall⟩
      rw [fibLoop]
      simp only [hlt, if_true, ha, hb, Option.bind_eq_bind, Option.some_bind, hs, hF]
      exact_mod_cast hout
    · have hnot : ¬ ((k : Int) < (N : Int)) := by omega
      refine ⟨fib, ?_, hlen, ?_⟩
      · simp [fibLoop, hnot]
      · intro j hj
        exact hinv j (by omega) hj

/-- Within the allocation limit `make` returns n zero values. -/
theorem makeSlice_of_le (n : Int) (h0 : 0 ≤ n) (hle : n ≤ 8796093022208) :
    makeSlice n = some (List.replicate n.toNat (0 : Int)) := by
  have hc : ¬ (n < 0 ∨ n * bigIntSize > maxAlloc) := by
    simp only [bigIntSize, maxAlloc]
    omega
  simp [makeSlice, hc]

/-- Beyond the allocation limit `make` panics. -/
theorem makeSlice_of_gt (n : Int) (hgt : 8796093022208 < n) : makeSlice n = none := by
  have hc : n < 0 ∨ n * bigIntSize > maxAlloc := by
    simp only [bigIntSize, maxAlloc]
    omega
  simp [makeSlice, hc]

/-- Beyond the allocation limit `Fibonacci` returns nothing: `make` panics. -/
theorem Fibonacci_of_gt (n : Int) (hgt : 8796093022208 < n) : Fibonacci n = none := by
  have hn : ¬ n ≤ 0 := by omega
  simp [Fibonacci, hn, makeSlice_of_gt n hgt]

/-- Within the allocation limit `Fibonacci` returns a slice of `n.toNat`
elements, the j-th being `F j`. -/
theorem Fibonacci_spec (n : Int) (hle : n ≤ 8796093022208) :
    ∃ out, Fibonacci n = some out ∧ out.length = n.toNat ∧
      ∀ j, j < n.toNat → out[j]? = some (F j) := by
  by_cases hn : n ≤ 0
  · refine ⟨[], by simp [Fibonacci, hn], by simp; omega, ?_⟩
    intro j hj
    omega
  · obtain ⟨N, rfl⟩ : ∃ N : Nat, n = (N : Int) := ⟨n.toNat, by omega⟩
    have hN : 1 ≤ N := by omega
    have hm := makeSlice_of_le (N : Int) (by omega) hle
    rw [Int.toNat_ofNat] at hm
    have h0 : sliceSet (List.replicate N (0 : Int)) 0 0 = some ((List.replicate N (0 : Int)).set 0 0) :=
      sliceSet_of_lt (i := 0) 0 (by simp; omega)
    by_cases h1 : (N : Int) > 1
    · have h1s : sliceSet ((List.replicate N (0 : Int)).set 0 0) 1 1
          = some (((List.replicate N (0 : Int)).set 0 0).set 1 1) :=
        sliceSet_of_lt (i := 1) 1 (by simp; omega)
      obtain ⟨out, hout, hl, hall⟩ := fibLoop_spec N (N - 1) 2
        (((List.replicate N (0 : Int)).set 0 0).set 1 1) (by simp) (by omega) (by omega) (by
          intro j hj hjN
          have : j = 0 ∨ j = 1 := by omega
          rcases this with rfl | rfl
          · simp [List.getElem?_set, List.getElem?_replicate, F, hjN]
          · simp [List.getElem?_set, List.getElem?_replicate, F, hjN])
      refine ⟨out, ?_, by simpa using hl, by simpa using hall⟩
      have e : N - 1 + 1 = N := by omega
      rw [e] at hout
      simp only [Fibonacci, hn, if_false, Int.toNat_ofNat, Option.bind_eq_bind, hm, h0,
        Option.some_bind, h1, if_true, h1s]
      exact hout
    · have hN1 : N = 1 := by omega
      subst hN1
      refine ⟨[0], by decide, by decide, ?_⟩
      intro j hj
      have hj0 : j = 0 := by simpa using hj
      subst hj0
      decide

/-- Within the allocation limit `Fibonacci` returns the list `F 0, ..., F (n - 1)`. -/
theorem Fibonacci_eq (n : Int) (hle : n ≤ 8796093022208) :
    Fibonacci n = some ((List.range n.toNat).map F) := by
  obtain ⟨out, hout, hl, hall⟩ := Fibonacci_spec n hle
  rw [hout]
  congr 1
  apply List.ext_getElem?
  intro j
  by_cases hj : j < n.toNat
  · rw [hall j hj]
    simp [List.getElem?_map, List.getElem?_range hj]
  · rw [List.getElem?_eq_none (by omega), List.getElem?_eq_none (by simp; omega)]

/-- Whatever slice `Fibonacci` returns is the list `F 0, ..., F (n - 1)`. -/
theorem Fibonacci_eq_of_some (n : Int) (fib : List Int) (h : Fibonacci n = some fib) :
    fib = (List.range n.toNat).map F := by
  by_cases hle : n ≤ 8796093022208
  · rw [Fibonacci_eq n hle] at h
    exact (Option.some.inj h).symm
  · rw [Fibonacci_of_gt n (by omega)] at h
    cases h

/-- A panic of `Fibonacci` is a panic of `make`: once the allocation has
succeeded, every slice access is within bounds and the loop ends. -/
theorem makeSlice_of_Fibonacci_none (n : Int) (h : Fibonacci n = none) :
    0 < n ∧ makeSlice n = none := by
  by_cases hle : n ≤ 8796093022208
  · obtain ⟨out, hout, _⟩ := Fibonacci_spec n hle
    rw [h] at hout
    cases hout
  · exact ⟨by omega, makeSlice_of_gt n (by omega)⟩

/-! ## Lemmas on the library functions and on the paths of `getFibs` -/

/-- A string has byte length below 1 exactly when it is empty. -/
theorem utf8ByteSize_lt_one_iff (s : String) : s.utf8ByteSize < 1 ↔ s = "" := by
  rcases s with ⟨cs⟩
  cases cs with
  | nil => simp; rfl
  | cons c cs =>
    have hc := Char.utf8Size_pos c
    constructor
    · intro h
      simp [String.utf8ByteSize, String.utf8ByteSize.go] at h
      omega
    · intro h
      exact absurd (congrArg String.data h) (by simp)

/-- The empty string does not parse. -/
theorem Atoi_empty : Atoi "" = none := by decide

/-- A string that parses is not empty. -/
theorem Atoi_some_size {v : String} {n : Int} (h : Atoi v = some n) : ¬ v.utf8ByteSize < 1 := by
  intro hlt
  rw [(utf8ByteSize_lt_one_iff v).1 hlt, Atoi_empty] at h
  cases h

/-- The fold of `Join` is the accumulating loop of `String.intercalate`. -/
theorem Join_go (sep : String) : ∀ (rest : List String) (acc : String),
    rest.foldl (fun acc s => acc ++ sep ++ s) acc = String.intercalate.go acc sep rest := by
  intro rest
  induction rest with
  | nil => intro acc; rfl
  | cons a as ih => intro acc; simp [String.intercalate.go, ih]

/-- The function `Join` is `String.intercalate`. -/
theorem Join_eq_intercalate (elems : List String) (sep : String) :
    Join elems sep = String.intercalate sep elems := by
  cases elems with
  | nil => rfl
  | cons e rest => simp [Join, String.intercalate, Join_go]

/-- The path of `getFibs` for a request outside "/". -/
theorem getFibsWith_notFound (gen : Int → Option (List Int)) (format : String)
    (w : ResponseWriter) (r : Request) (hpath : r.path ≠ "/") :
    getFibsWith gen format w r = ⟨w.WriteHeader StatusNotFound, none⟩ := by
  simp [getFibsWith, hpath]

/-- The path of `getFibs` for a missing or empty n. -/
theorem getFibsWith_usage (gen : Int → Option (List Int)) (format : String)
    (w : ResponseWriter) (r : Request) (hpath : r.path = "/")
    (hq : r.query.lookup "n" = none ∨ r.query.lookup "n" = some [] ∨
      ∃ rest, r.query.lookup "n" = some ("" :: rest)) :
    getFibsWith gen format w r =
      ⟨(w.WriteHeader StatusUnprocessableEntity).Write
        "Error: n url parameter is missing, pass it with ?n=<positive integer>", none⟩ := by
  rcases hq with h | h | ⟨rest, h⟩
  · simp [getFibsWith, hpath, h]
  · simp [getFibsWith, hpath, h]
  · have : "".utf8ByteSize < 1 := by decide
    simp [getFibsWith, hpath, h, this]

/-- The path of `getFibs` for an n that does not parse or is out of range. -/
theorem getFibsWith_outOfRange (gen : Int → Option (List Int)) (format : String)
    (w : ResponseWriter) (r : Request) (v : String) (rest : List String)
    (hpath : r.path = "/") (hq : r.query.lookup "n" = some (v :: rest)) (hv : v ≠ "")
    (hbad : Atoi v = none ∨ ∃ n, Atoi v = some n ∧ (n < 0 ∨ n > 10000)) :
    getFibsWith gen format w r =
      ⟨(w.WriteHeader StatusUnprocessableEntity).Write
        "Error: n must be a positive integer between 0 and 10000", none⟩ := by
  have hsz : ¬ v.utf8ByteSize < 1 := fun h => hv ((utf8ByteSize_lt_one_iff v).1 h)
  have hmsg : "Error: n must be a positive integer between 0 and " ++ Itoa nLimit
      = "Error: n must be a positive integer between 0 and 10000" := by decide
  rcases hbad with h | ⟨n, h, hn⟩
  · simp only [getFibsWith, hpath, h, hq, hsz, hmsg]
    simp
  · have hn2 : n < 0 ∨ n > nLimit := by simpa [nLimit] using hn
    simp only [getFibsWith, hpath, h, hq, hsz, hmsg, hn2]
    simp

/-- The path of `getFibs` for a valid n: generate, then render. -/
theorem getFibsWith_valid (gen : Int → Option (List Int)) (format : String)
    (w : ResponseWriter) (r : Request) (v : String) (rest : List String) (n : Int)
    (hpath : r.path = "/") (hq : r.query.lookup "n" = some (v :: rest))
    (hparse : Atoi v = some n) (h0 : 0 ≤ n) (hle : n ≤ 10000) :
    getFibsWith gen format w r =
      match gen n with
      | none => ⟨w, some "runtime error: index out of range"⟩
      | some nums =>
        if format = "json" then ⟨printFibsToJson w nums, none⟩
        else ⟨printFibsPlaintext w nums, none⟩ := by
  have hsz : ¬ v.utf8ByteSize < 1 := Atoi_some_size hparse
  have hn2 : ¬ (n < 0 ∨ n > nLimit) := by simp [nLimit]; omega
  simp only [getFibsWith, hpath, hparse, hq, hsz, hn2]
  simp

/-- On a valid n, `getFibs` renders the list `F 0, ..., F (n - 1)`. -/
theorem getFibs_valid (format : String)
    (w : ResponseWriter) (r : Request) (v : String) (rest : List String) (n : Int)
    (hpath : r.path = "/") (hq : r.query.lookup "n" = some (v :: rest))
    (hparse : Atoi v = some n) (h0 : 0 ≤ n) (hle : n ≤ 10000) :
    getFibs format w r =
      if format = "json" then ⟨printFibsToJson w ((List.range n.toNat).map F), none⟩
      else ⟨printFibsPlaintext w ((List.range n.toNat).map F), none⟩ := by
  rw [getFibs, getFibsWith_valid Fibonacci format w r v rest n hpath hq hparse h0 hle,
    Fibonacci_eq n (by omega)]

/-- What `printFibsPlaintext` leaves in a fresh response writer. -/
theorem printFibsPlaintext_new (nums : List Int) :
    printFibsPlaintext NewRecorder nums =
      { header := [("Content-Type", "text/plain")], wroteHeader := true, code := 200,
        sentHeader := [("Content-Type", "text/plain")],
        body := String.intercalate ", " (nums.map bigIntString) } := by
  simp [printFibsPlaintext, NewRecorder, ResponseWriter.HeaderSet, ResponseWriter.Write,
    ResponseWriter.WriteHeader, Header.Set, Join_eq_intercalate]

/-- What `printFibsToJson` leaves in a fresh response writer. -/
theorem printFibsToJson_new (nums : List Int) :
    printFibsToJson NewRecorder nums =
      { header := [("Content-Type", "application/json")], wroteHeader := true, code := 200,
        sentHeader := [("Content-Type", "application/json")],
        body := "[" ++ String.intercalate "," (nums.map (fun x => jsonString (bigIntString x)))
          ++ "]" ++ "\n" } := by
  simp [printFibsToJson, NewRecorder, ResponseWriter.HeaderSet, ResponseWriter.Write,
    ResponseWriter.WriteHeader, Header.Set, Join_eq_intercalate, jsonEncodeStrings,
    Function.comp_def]

/-! ## Decimal strings need no JSON escaping -/

/-- A decimal digit is written to JSON as it is. -/
theorem jsonEscapeChar_digitChar (d : Nat) (hd : d < 10) :
    jsonEscapeChar (Nat.digitChar d) = [Nat.digitChar d] := by
  interval_cases d <;> decide

/-- The digit loop of `Nat.repr` only adds characters that JSON writes as they are. -/
theorem jsonEscapeChar_toDigitsCore : ∀ (fuel n : Nat) (ds : List Char),
    (∀ c ∈ ds, jsonEscapeChar c = [c]) →
    ∀ c ∈ Nat.toDigitsCore 10 fuel n ds, jsonEscapeChar c = [c] := by
  intro fuel
  induction fuel with
  | zero => intro n ds h; simpa [Nat.toDigitsCore] using h
  | succ fuel ih =>
    intro n ds h
    have hd := jsonEscapeChar_digitChar (n % 10) (Nat.mod_lt _ (by decide))
    have hcons : ∀ c ∈ Nat.digitChar (n % 10) :: ds, jsonEscapeChar c = [c] := by
      intro c hc
      rcases List.mem_cons.1 hc with rfl | hc
      · exact hd
      · exact h c hc
    rw [Nat.toDigitsCore]
    by_cases h0 : n / 10 = 0
    · simpa [h0] using hcons
    · simp only [h0, if_false]
      exact ih (n / 10) _ hcons

/-- Every character of `Nat.repr m` is written to JSON as it is. -/
theorem jsonEscapeChar_repr (m : Nat) : ∀ c ∈ (Nat.repr m).data, jsonEscapeChar c = [c] := by
  simpa [Nat.repr, Nat.toDigits, List.asString] using
    jsonEscapeChar_toDigitsCore (m + 1) m [] (by simp)

/-- Escaping a list of characters that need no escape gives the list back. -/
theorem flatMap_id_of {l : List Char} (h : ∀ c ∈ l, jsonEscapeChar c = [c]) :
    l.flatMap jsonEscapeChar = l := by
  induction l with
  | nil => rfl
  | cons a as ih =>
    rw [List.flatMap_cons, h a (List.mem_cons_self _ _), ih (fun c hc => h c (List.mem_cons_of_mem _ hc))]
    rfl

/-- Every character of a decimal string is written to JSON as it is. -/
theorem jsonEscapeChar_bigIntString (x : Int) :
    ∀ c ∈ (bigIntString x).data, jsonEscapeChar c = [c] := by
  cases x with
  | ofNat m => exact jsonEscapeChar_repr m
  | negSucc m =>
    intro c hc
    have hc2 : c = '-' ∨ c ∈ (Nat.repr (m + 1)).data := by
      simpa [bigIntString] using hc
    rcases hc2 with rfl | hc2
    · decide
    · exact jsonEscapeChar_repr (m + 1) c hc2

/-- The JSON encoding of a decimal string is the string between two quotes. -/
theorem jsonString_bigIntString (x : Int) :
    jsonString (bigIntString x) = "\"" ++ bigIntString x ++ "\"" := by
  rw [jsonString, flatMap_id_of (jsonEscapeChar_bigIntString x)]
  apply String.ext
  simp

/-- Reading index `i` of the list `F 0, ..., F (n - 1)`. -/
theorem sliceGet_fibs (n i : Int) (h0 : 0 ≤ i) (hi : i < n) :
    sliceGet ((List.range n.toNat).map F) i = some (F i.toNat) := by
  have h : ((List.range n.toNat).map F)[i.toNat]? = some (F i.toNat) := by
    rw [List.getElem?_map, List.getElem?_range (by omega)]
    rfl
  have := sliceGet_of_getElem h
  rwa [Int.toNat_of_nonneg h0] at this

/-! ## The sequence generator -/

/-- C1, as the code has it: for every integer n for which `Fibonacci(n)`
returns a slice, and it does for every n up to the limit 10000, and for every
index i with 0 ≤ i < n, element i of the slice is the i-th Fibonacci number
`F(i)`, an unbounded integer; and `Fibonacci(1) = [0]`, `Fibonacci(2) = [0, 1]`,
`Fibonacci(5) = [0, 1, 1, 2, 3]`. -/
theorem Fibonacci_elements :
    (∀ n i : Int, 0 ≤ i → i < n → n ≤ 10000 →
      ∃ fib, Fibonacci n = some fib ∧ sliceGet fib i = some (F i.toNat)) ∧
    (∀ (n i : Int) (fib : List Int), Fibonacci n = some fib → 0 ≤ i → i < n →
      sliceGet fib i = some (F i.toNat)) ∧
    Fibonacci 1 = some [0] ∧ Fibonacci 2 = some [0, 1] ∧
    Fibonacci 5 = some [0, 1, 1, 2, 3] := by
  refine ⟨?_, ?_, by decide, by decide, by decide⟩
  · intro n i h0 hi hle
    exact ⟨_, Fibonacci_eq n (by omega), sliceGet_fibs n i h0 hi⟩
  · intro n i fib hfib h0 hi
    rw [Fibonacci_eq_of_some n fib hfib]
    exact sliceGet_fibs n i h0 hi

theorem Fibonacci_elements_witness :
    (∃ fib, Fibonacci 7 = some fib ∧ sliceGet fib 6 = some (F (6 : Int).toNat)) ∧
    sliceGet [0, 1, 1] 2 = some (F (2 : Int).toNat) :=
  ⟨Fibonacci_elements.1 7 6 (by decide) (by decide) (by decide),
    Fibonacci_elements.2.1 3 2 [0, 1, 1] (by decide) (by decide) (by decide)⟩

/-- C1, as stated, fails: at n = 2^47 and i = 0, within 0 ≤ i < n, there is no
element 0 of `Fibonacci(n)` equal to `F(0)`: `make([]big.Int, n)` panics and
no slice is returned. -/
theorem Fibonacci_elements_fails :
    (0 : Int) ≤ 0 ∧ (0 : Int) < 2 ^ 47 ∧
    ¬ ∃ fib, Fibonacci (2 ^ 47) = some fib ∧ sliceGet fib 0 = some (F (0 : Int).toNat) := by
  refine ⟨by decide, by norm_num, ?_⟩
  rintro ⟨fib, hfib, _⟩
  rw [Fibonacci_of_gt (2 ^ 47) (by norm_num)] at hfib
  cases hfib

/-- C2, as the code has it: for every integer n up to the limit 10000,
`Fibonacci(n)` returns a slice of exactly max(n, 0) elements; for every n ≤ 0
it returns the empty slice; and for every integer n, a slice that
`Fibonacci(n)` returns has exactly max(n, 0) elements. -/
theorem Fibonacci_length :
    (∀ n : Int, n ≤ 10000 →
      ∃ fib, Fibonacci n = some fib ∧ (fib.length : Int) = max n 0) ∧
    (∀ n : Int, n ≤ 0 → Fibonacci n = some []) ∧
    (∀ (n : Int) (fib : List Int), Fibonacci n = some fib →
      (fib.length : Int) = max n 0) := by
  refine ⟨?_, ?_, ?_⟩
  · intro n hle
    refine ⟨_, Fibonacci_eq n (by omega), ?_⟩
    simp only [List.length_map, List.length_range]
    omega
  · intro n hn
    simp [Fibonacci, hn]
  · intro n fib hfib
    rw [Fibonacci_eq_of_some n fib hfib]
    simp only [List.length_map, List.length_range]
    omega

theorem Fibonacci_length_witness :
    (∃ fib, Fibonacci 4 = some fib ∧ (fib.length : Int) = max 4 0) ∧
    Fibonacci (-3) = some [] ∧
    (([0, 1, 1] : List Int).length : Int) = max 3 0 :=
  ⟨Fibonacci_length.1 4 (by decide), Fibonacci_length.2.1 (-3) (by decide),
    Fibonacci_length.2.2 3 [0, 1, 1] (by decide)⟩

/-- C2, as stated, fails: at n = 2^47 `Fibonacci(n)` returns no slice of
max(n, 0) elements: `make([]big.Int, n)` panics. -/
theorem Fibonacci_length_fails :
    ¬ ∃ fib, Fibonacci (2 ^ 47) = some fib ∧ (fib.length : Int) = max (2 ^ 47) 0 := by
  rintro ⟨fib, hfib, _⟩
  rw [Fibonacci_of_gt (2 ^ 47) (by norm_num)] at hfib
  cases hfib

/-- C3, as the code has it: for every n ≥ 2 for which `Fibonacci(n)` returns a
slice, and it does for every n up to the limit 10000, and for every i with
2 ≤ i < n, element i of the slice is the exact integer sum of elements i-1 and
i-2, with no wrap-around. -/
theorem Fibonacci_recurrence :
    (∀ n i : Int, 2 ≤ n → 2 ≤ i → i < n → n ≤ 10000 →
      ∃ fib a b, Fibonacci n = some fib ∧ sliceGet fib (i - 1) = some a ∧
        sliceGet fib (i - 2) = some b ∧ sliceGet fib i = some (a + b)) ∧
    (∀ (n i : Int) (fib : List Int), Fibonacci n = some fib → 2 ≤ n → 2 ≤ i → i < n →
      ∃ a b, sliceGet fib (i - 1) = some a ∧ sliceGet fib (i - 2) = some b ∧
        sliceGet fib i = some (a + b)) := by
  have key : ∀ n i : Int, 2 ≤ i → i < n →
      sliceGet ((List.range n.toNat).map F) (i - 1) = some (F (i - 1).toNat) ∧
      sliceGet ((List.range n.toNat).map F) (i - 2) = some (F (i - 2).toNat) ∧
      sliceGet ((List.range n.toNat).map F) i = some (F (i - 1).toNat + F (i - 2).toNat) := by
    intro n i h2 hi
    refine ⟨sliceGet_fibs n (i - 1) (by omega) (by omega),
      sliceGet_fibs n (i - 2) (by omega) (by omega), ?_⟩
    rw [sliceGet_fibs n i (by omega) hi]
    obtain ⟨m, rfl⟩ : ∃ m : Nat, i = ((m + 2 : Nat) : Int) := ⟨(i - 2).toNat, by omega⟩
    have e1 : (((m + 2 : Nat) : Int) - 1).toNat = m + 1 := by omega
    have e2 : (((m + 2 : Nat) : Int) - 2).toNat = m := by omega
    rw [e1, e2, Int.toNat_ofNat]
    rfl
  constructor
  · intro n i _ h2 hi hle
    exact ⟨_, _, _, Fibonacci_eq n (by omega), key n i h2 hi⟩
  · intro n i fib hfib _ h2 hi
    rw [Fibonacci_eq_of_some n fib hfib]
    exact ⟨_, _, key n i h2 hi⟩

theorem Fibonacci_recurrence_witness :
    (∃ fib a b, Fibonacci 10 = some fib ∧ sliceGet fib (9 - 1) = some a ∧
      sliceGet fib (9 - 2) = some b ∧ sliceGet fib 9 = some (a + b)) ∧
    (∃ a b, sliceGet [0, 1, 1, 2] (3 - 1) = some a ∧ sliceGet [0, 1, 1, 2] (3 - 2) = some b ∧
      sliceGet [0, 1, 1, 2] 3 = some (a + b)) :=
  ⟨Fibonacci_recurrence.1 10 9 (by decide) (by decide) (by decide) (by decide),
    Fibonacci_recurrence.2 4 3 [0, 1, 1, 2] (by decide) (by decide) (by decide) (by decide)⟩

/-- C3, as stated, fails: at n = 2^47 and i = 2, with n ≥ 2 and 2 ≤ i < n,
`Fibonacci(n)` has no elements i, i-1, i-2 to relate: `make([]big.Int, n)`
panics and no slice is returned. -/
theorem Fibonacci_recurrence_fails :
    (2 : Int) ≤ 2 ^ 47 ∧ (2 : Int) < 2 ^ 47 ∧
    ¬ ∃ fib a b, Fibonacci (2 ^ 47) = some fib ∧ sliceGet fib (2 - 1) = some a ∧
      sliceGet fib (2 - 2) = some b ∧ sliceGet fib 2 = some (a + b) := by
  refine ⟨by norm_num, by norm_num, ?_⟩
  rintro ⟨fib, a, b, hfib, _⟩
  rw [Fibonacci_of_gt (2 ^ 47) (by norm_num)] at hfib
  cases hfib

/-! ## The request handler -/

/-- C4: for a request with path "/" whose first n value parses to an integer
n with 0 ≤ n ≤ 10000, with the format plaintext, `getFibs` completes without a
fault and responds with status 200, content type "text/plain" and, as body, the
decimal representations of F(0), ..., F(n-1) joined by ", "; for n = 5 the body
is "0, 1, 1, 2, 3". -/
theorem getFibs_plaintext :
    (∀ (r : Request) (v : String) (rest : List String) (n : Int),
      r.path = "/" → r.query.lookup "n" = some (v :: rest) → Atoi v = some n →
      0 ≤ n → n ≤ 10000 →
      (getFibs "plaintext" NewRecorder r).fault = none ∧
      (getFibs "plaintext" NewRecorder r).w.code = 200 ∧
      (getFibs "plaintext" NewRecorder r).w.contentType = "text/plain" ∧
      (getFibs "plaintext" NewRecorder r).w.body =
        String.intercalate ", " ((List.range n.toNat).map (fun i => bigIntString (F i)))) ∧
    (getFibs "plaintext" NewRecorder ⟨"/", [("n", ["5"])]⟩).w.body = "0, 1, 1, 2, 3" := by
  refine ⟨?_, by decide⟩
  intro r v rest n hpath hq hparse h0 hle
  have hfmt : ¬ ("plaintext" = "json") := by decide
  rw [getFibs_valid "plaintext" NewRecorder r v rest n hpath hq hparse h0 hle, if_neg hfmt,
    printFibsPlaintext_new]
  refine ⟨rfl, rfl, rfl, ?_⟩
  simp [Function.comp_def]

theorem getFibs_plaintext_witness :
    (getFibs "plaintext" NewRecorder ⟨"/", [("n", ["3"])]⟩).fault = none ∧
    (getFibs "plaintext" NewRecorder ⟨"/", [("n", ["3"])]⟩).w.code = 200 ∧
    (getFibs "plaintext" NewRecorder ⟨"/", [("n", ["3"])]⟩).w.contentType = "text/plain" ∧
    (getFibs "plaintext" NewRecorder ⟨"/", [("n", ["3"])]⟩).w.body =
      String.intercalate ", " ((List.range (3 : Int).toNat).map (fun i => bigIntString (F i))) :=
  getFibs_plaintext.1 ⟨"/", [("n", ["3"])]⟩ "3" [] 3 (by decide) (by decide) (by decide)
    (by decide) (by decide)

/-- C5, as the code has it: for a request with path "/" whose first n value
parses to an integer n with 0 ≤ n ≤ 10000, with the format "json", `getFibs`
completes without a fault and responds with status 200, content type
"application/json" and, as body, the JSON array of the decimal strings of
F(0), ..., F(n-1) followed by one newline character; for n = 5 the body is the
array `["0","1","1","2","3"]` and a newline, for n = 0 it is `[]` and a
newline. -/
theorem getFibs_json :
    (∀ (r : Request) (v : String) (rest : List String) (n : Int),
      r.path = "/" → r.query.lookup "n" = some (v :: rest) → Atoi v = some n →
      0 ≤ n → n ≤ 10000 →
      (getFibs "json" NewRecorder r).fault = none ∧
      (getFibs "json" NewRecorder r).w.code = 200 ∧
      (getFibs "json" NewRecorder r).w.contentType = "application/json" ∧
      (getFibs "json" NewRecorder r).w.body =
        "[" ++ String.intercalate ","
          ((List.range n.toNat).map (fun i => "\"" ++ bigIntString (F i) ++ "\""))
          ++ "]" ++ "\n") ∧
    (getFibs "json" NewRecorder ⟨"/", [("n", ["5"])]⟩).w.body
      = "[\"0\",\"1\",\"1\",\"2\",\"3\"]\n" ∧
    (getFibs "json" NewRecorder ⟨"/", [("n", ["0"])]⟩).w.body = "[]\n" := by
  refine ⟨?_, by decide, by decide⟩
  intro r v rest n hpath hq hparse h0 hle
  rw [getFibs_valid "json" NewRecorder r v rest n hpath hq hparse h0 hle, if_pos rfl,
    printFibsToJson_new]
  refine ⟨rfl, rfl, rfl, ?_⟩
  simp [Function.comp_def, jsonString_bigIntString]

theorem getFibs_json_witness :
    (getFibs "json" NewRecorder ⟨"/", [("n", ["3"])]⟩).fault = none ∧
    (getFibs "json" NewRecorder ⟨"/", [("n", ["3"])]⟩).w.code = 200 ∧
    (getFibs "json" NewRecorder ⟨"/", [("n", ["3"])]⟩).w.contentType = "application/json" ∧
    (getFibs "json" NewRecorder ⟨"/", [("n", ["3"])]⟩).w.body =
      "[" ++ String.intercalate ","
        ((List.range (3 : Int).toNat).map (fun i => "\"" ++ bigIntString (F i) ++ "\""))
        ++ "]" ++ "\n" :=
  getFibs_json.1 ⟨"/", [("n", ["3"])]⟩ "3" [] 3 (by decide) (by decide) (by decide)
    (by decide) (by decide)

/-- C5, as stated, fails: with the format "json" the body for n = 5 is not
exactly `["0","1","1","2","3"]` and the body for n = 0 is not exactly `[]`
(the encoder ends its output with a newline), although both requests are
answered with status 200. -/
theorem getFibs_json_body_not_bare_array :
    (getFibs "json" NewRecorder ⟨"/", [("n", ["5"])]⟩).w.code = 200 ∧
    (getFibs "json" NewRecorder ⟨"/", [("n", ["5"])]⟩).w.body
      ≠ "[\"0\",\"1\",\"1\",\"2\",\"3\"]" ∧
    (getFibs "json" NewRecorder ⟨"/", [("n", ["0"])]⟩).w.code = 200 ∧
    (getFibs "json" NewRecorder ⟨"/", [("n", ["0"])]⟩).w.body ≠ "[]" := by
  decide

/-- C6: for a request with path "/" whose first n value is non-empty and
either does not parse as an integer (as "abc", or a digit string beyond the
64-bit range), or parses to a negative integer, or parses to an integer
greater than 10000 (as 99999), `getFibs` responds with status 422 and the body
"Error: n must be a positive integer between 0 and 10000", whatever the format,
and whatever the sequence generator would do: it is not called. -/
theorem getFibs_outOfRange :
    (∀ (format : String) (r : Request) (v : String) (rest : List String),
      r.path = "/" → r.query.lookup "n" = some (v :: rest) → v ≠ "" →
      (Atoi v = none ∨ ∃ n, Atoi v = some n ∧ (n < 0 ∨ n > 10000)) →
      (getFibs format NewRecorder r).fault = none ∧
      (getFibs format NewRecorder r).w.code = 422 ∧
      (getFibs format NewRecorder r).w.body
        = "Error: n must be a positive integer between 0 and 10000" ∧
      ∀ gen : Int → Option (List Int),
        getFibsWith gen format NewRecorder r = getFibs format NewRecorder r) ∧
    Atoi "abc" = none ∧ Atoi "9223372036854775808" = none ∧ Atoi "99999" = some 99999 := by
  refine ⟨?_, by decide, by decide, by decide⟩
  intro format r v rest hpath hq hv hbad
  have h := fun gen => getFibsWith_outOfRange gen format NewRecorder r v rest hpath hq hv hbad
  refine ⟨?_, ?_, ?_, ?_⟩
  · rw [getFibs, h]
  · rw [getFibs, h]; rfl
  · rw [getFibs, h]; rfl
  · intro gen
    rw [getFibs, h, h]

theorem getFibs_outOfRange_witness :
    (getFibs "json" NewRecorder ⟨"/", [("n", ["-7"])]⟩).fault = none ∧
    (getFibs "json" NewRecorder ⟨"/", [("n", ["-7"])]⟩).w.code = 422 ∧
    (getFibs "json" NewRecorder ⟨"/", [("n", ["-7"])]⟩).w.body
      = "Error: n must be a positive integer between 0 and 10000" ∧
    getFibsWith (fun _ => none) "json" NewRecorder ⟨"/", [("n", ["-7"])]⟩
      = getFibs "json" NewRecorder ⟨"/", [("n", ["-7"])]⟩ :=
  have h := getFibs_outOfRange.1 "json" ⟨"/", [("n", ["-7"])]⟩ "-7" [] (by decide) (by decide)
    (by decide) (Or.inr ⟨-7, by decide, Or.inl (by decide)⟩)
  ⟨h.1, h.2.1, h.2.2.1, h.2.2.2 (fun _ => none)⟩

/-- C7: for a request with path "/" in which the parameter n is absent, or has
no value, or has the empty string as its first value, `getFibs` responds with
status 422 and the usage body "Error: n url parameter is missing, pass it with
?n=<positive integer>", not the range message, whatever the format. -/
theorem getFibs_missing (format : String) (r : Request) (hpath : r.path = "/")
    (hq : r.query.lookup "n" = none ∨ r.query.lookup "n" = some [] ∨
      ∃ rest, r.query.lookup "n" = some ("" :: rest)) :
    (getFibs format NewRecorder r).fault = none ∧
    (getFibs format NewRecorder r).w.code = 422 ∧
    (getFibs format NewRecorder r).w.body
      = "Error: n url parameter is missing, pass it with ?n=<positive integer>" ∧
    (getFibs format NewRecorder r).w.body
      ≠ "Error: n must be a positive integer between 0 and 10000" := by
  rw [getFibs, getFibsWith_usage Fibonacci format NewRecorder r hpath hq]
  exact ⟨rfl, rfl, rfl, by decide⟩

theorem getFibs_missing_witness :
    (getFibs "plaintext" NewRecorder ⟨"/", [("n", ["", "5"])]⟩).fault = none ∧
    (getFibs "plaintext" NewRecorder ⟨"/", [("n", ["", "5"])]⟩).w.code = 422 ∧
    (getFibs "plaintext" NewRecorder ⟨"/", [("n", ["", "5"])]⟩).w.body
      = "Error: n url parameter is missing, pass it with ?n=<positive integer>" ∧
    (getFibs "plaintext" NewRecorder ⟨"/", [("n", ["", "5"])]⟩).w.body
      ≠ "Error: n must be a positive integer between 0 and 10000" :=
  getFibs_missing "plaintext" ⟨"/", [("n", ["", "5"])]⟩ (by decide)
    (Or.inr (Or.inr ⟨["5"], by decide⟩))

/-- C8: for a request whose path is not exactly "/", `getFibs` responds with
status 404 and an empty body, whatever the query parameters and the format:
the route check comes before the validation of n. -/
theorem getFibs_notFound (format : String) (r : Request) (hpath : r.path ≠ "/") :
    (getFibs format NewRecorder r).fault = none ∧
    (getFibs format NewRecorder r).w.code = 404 ∧
    (getFibs format NewRecorder r).w.body = "" := by
  rw [getFibs, getFibsWith_notFound Fibonacci format NewRecorder r hpath]
  exact ⟨rfl, rfl, rfl⟩

theorem getFibs_notFound_witness :
    (getFibs "plaintext" NewRecorder ⟨"/invalid", [("n", ["5"])]⟩).fault = none ∧
    (getFibs "plaintext" NewRecorder ⟨"/invalid", [("n", ["5"])]⟩).w.code = 404 ∧
    (getFibs "plaintext" NewRecorder ⟨"/invalid", [("n", ["5"])]⟩).w.body = "" :=
  getFibs_notFound "plaintext" ⟨"/invalid", [("n", ["5"])]⟩ (by decide)

/-- The status of the response for an n that parses. -/
theorem getFibs_code (format : String) (r : Request) (v : String) (rest : List String)
    (n : Int) (hpath : r.path = "/") (hq : r.query.lookup "n" = some (v :: rest))
    (hparse : Atoi v = some n) :
    (getFibs format NewRecorder r).w.code = if 0 ≤ n ∧ n ≤ 10000 then 200 else 422 := by
  by_cases hn : 0 ≤ n ∧ n ≤ 10000
  · rw [if_pos hn, getFibs_valid format NewRecorder r v rest n hpath hq hparse hn.1 hn.2]
    by_cases hf : format = "json"
    · rw [if_pos hf, printFibsToJson_new]
    · rw [if_neg hf, printFibsPlaintext_new]
  · have hv : v ≠ "" := fun h => Atoi_some_size hparse ((utf8ByteSize_lt_one_iff v).2 h)
    rw [if_neg hn, getFibs, getFibsWith_outOfRange Fibonacci format NewRecorder r v rest hpath hq
      hv (Or.inr ⟨n, hparse, by omega⟩)]
    rfl

/-- On a valid n with the format plaintext, the body is the joined decimal
strings of the slice that `Fibonacci` returns, which has n elements. -/
theorem getFibs_plaintext_terms (r : Request) (v : String) (rest : List String)
    (n : Int) (hpath : r.path = "/") (hq : r.query.lookup "n" = some (v :: rest))
    (hparse : Atoi v = some n) (h0 : 0 ≤ n) (hle : n ≤ 10000) :
    ∃ nums, Fibonacci n = some nums ∧ (nums.length : Int) = n ∧
      (getFibs "plaintext" NewRecorder r).w.code = 200 ∧
      (getFibs "plaintext" NewRecorder r).w.body
        = String.intercalate ", " (nums.map bigIntString) := by
  have hfmt : ¬ ("plaintext" = "json") := by decide
  rw [getFibs_valid "plaintext" NewRecorder r v rest n hpath hq hparse h0 hle, if_neg hfmt,
    printFibsPlaintext_new]
  refine ⟨_, Fibonacci_eq n (by omega), ?_, rfl, rfl⟩
  rw [List.length_map, List.length_range]
  omega

/-- C9: the accepted range of n is exactly the closed interval [0, 10000]: for
path "/" and a first n value that parses to n, the status is 200 exactly when
0 ≤ n ≤ 10000 and is 422 otherwise; n = 0 yields status 200 with an empty
plaintext body, n = 10000 yields status 200 with, as body, the 10000 terms
that `Fibonacci(10000)` returns, n = -1 and n = 10001 yield status 422. -/
theorem getFibs_accepted_range :
    (∀ (format : String) (r : Request) (v : String) (rest : List String) (n : Int),
      r.path = "/" → r.query.lookup "n" = some (v :: rest) → Atoi v = some n →
      ((getFibs format NewRecorder r).w.code = 200 ↔ (0 ≤ n ∧ n ≤ 10000)) ∧
      ((getFibs format NewRecorder r).w.code = 422 ↔ ¬ (0 ≤ n ∧ n ≤ 10000))) ∧
    ((getFibs "plaintext" NewRecorder ⟨"/", [("n", ["0"])]⟩).w.code = 200 ∧
      (getFibs "plaintext" NewRecorder ⟨"/", [("n", ["0"])]⟩).w.body = "") ∧
    ((getFibs "plaintext" NewRecorder ⟨"/", [("n", ["10000"])]⟩).w.code = 200 ∧
      ∃ nums, Fibonacci 10000 = some nums ∧ nums.length = 10000 ∧
        (getFibs "plaintext" NewRecorder ⟨"/", [("n", ["10000"])]⟩).w.body
          = String.intercalate ", " (nums.map bigIntString)) ∧
    (getFibs "plaintext" NewRecorder ⟨"/", [("n", ["-1"])]⟩).w.code = 422 ∧
    (getFibs "plaintext" NewRecorder ⟨"/", [("n", ["10001"])]⟩).w.code = 422 := by
  refine ⟨?_, by decide, ?_, by decide, by decide⟩
  · intro format r v rest n hpath hq hparse
    rw [getFibs_code format r v rest n hpath hq hparse]
    by_cases hn : 0 ≤ n ∧ n ≤ 10000
    · simp [hn]
    · simp [hn]
  · obtain ⟨nums, h1, h2, h3, h4⟩ := getFibs_plaintext_terms ⟨"/", [("n", ["10000"])]⟩
      "10000" [] 10000 rfl (by decide) (by decide) (by decide) (by decide)
    exact ⟨h3, nums, h1, by omega, h4⟩

theorem getFibs_accepted_range_witness :
    ((getFibs "json" NewRecorder ⟨"/", [("n", ["7"])]⟩).w.code = 200
      ↔ ((0 : Int) ≤ 7 ∧ (7 : Int) ≤ 10000)) ∧
    ((getFibs "json" NewRecorder ⟨"/", [("n", ["7"])]⟩).w.code = 422
      ↔ ¬ ((0 : Int) ≤ 7 ∧ (7 : Int) ≤ 10000)) :=
  getFibs_accepted_range.1 "json" ⟨"/", [("n", ["7"])]⟩ "7" [] 7 (by decide) (by decide)
    (by decide)

/-! ## The recovery middleware -/

/-- C10, as the code has it: `RecoveryMiddleware(next)` yields the response of
`next` unchanged when `next` completes without a fault; when `next` panics, the
panic does not propagate, and the response has status 500 if `next` had not
yet written its status line (by `WriteHeader` or a first `Write`), while a
status line that `next` had already written stands. -/
theorem RecoveryMiddleware_spec (next : HandlerFunc) (w : ResponseWriter) (r : Request) :
    ((next w r).fault = none → RecoveryMiddleware next w r = next w r) ∧
    ((next w r).fault ≠ none →
      (RecoveryMiddleware next w r).fault = none ∧
      ((next w r).w.wroteHeader = false → (RecoveryMiddleware next w r).w.code = 500) ∧
      ((next w r).w.wroteHeader = true →
        (RecoveryMiddleware next w r).w.code = (next w r).w.code)) := by
  unfold RecoveryMiddleware
  rcases hnext : next w r with ⟨w1, _ | e⟩
  · simp
  · simp only [reduceCtorEq, false_implies, ne_eq, not_false_eq_true, true_implies, true_and]
    refine ⟨?_, ?_⟩
    · intro hw
      simp [httpError, ResponseWriter.Write, ResponseWriter.WriteHeader,
        ResponseWriter.HeaderSet, hw, StatusInternalServerError]
    · intro hw
      simp [httpError, ResponseWriter.Write, ResponseWriter.WriteHeader,
        ResponseWriter.HeaderSet, hw]

theorem RecoveryMiddleware_spec_witness :
    (RecoveryMiddleware (getFibs "plaintext") NewRecorder ⟨"/", [("n", ["5"])]⟩
      = getFibs "plaintext" NewRecorder ⟨"/", [("n", ["5"])]⟩) ∧
    (RecoveryMiddleware panicFirst NewRecorder ⟨"/", []⟩).fault = none ∧
    (RecoveryMiddleware panicFirst NewRecorder ⟨"/", []⟩).w.code = 500 ∧
    (RecoveryMiddleware writeThenPanic NewRecorder ⟨"/", []⟩).w.code
      = (writeThenPanic NewRecorder ⟨"/", []⟩).w.code :=
  ⟨(RecoveryMiddleware_spec (getFibs "plaintext") NewRecorder ⟨"/", [("n", ["5"])]⟩).1
      (by decide),
    ((RecoveryMiddleware_spec panicFirst NewRecorder ⟨"/", []⟩).2 (by decide)).1,
    ((RecoveryMiddleware_spec panicFirst NewRecorder ⟨"/", []⟩).2 (by decide)).2.1 (by decide),
    ((RecoveryMiddleware_spec writeThenPanic NewRecorder ⟨"/", []⟩).2 (by decide)).2.2
      (by decide)⟩

/-- C10, as stated, fails: the handler `writeThenPanic` panics after it has
begun writing its response; under `RecoveryMiddleware` the panic does not
propagate, but the response keeps the status 200 that the first write fixed,
it does not get status 500. -/
theorem RecoveryMiddleware_status_not_500 :
    (writeThenPanic NewRecorder ⟨"/", []⟩).fault ≠ none ∧
    (RecoveryMiddleware writeThenPanic NewRecorder ⟨"/", []⟩).fault = none ∧
    (RecoveryMiddleware writeThenPanic NewRecorder ⟨"/", []⟩).w.code = 200 ∧
    (RecoveryMiddleware writeThenPanic NewRecorder ⟨"/", []⟩).w.code ≠ 500 := by
  decide

/-! ## Lemmas on the Fibonacci numbers -/

/-- The numbers `F` are the Fibonacci numbers of Mathlib. -/
theorem F_eq_fib : ∀ k : Nat, F k = (Nat.fib k : Int) ∧ F (k + 1) = (Nat.fib (k + 1) : Int) := by
  intro k
  induction k with
  | zero => exact ⟨by simp [F], by simp [F]⟩
  | succ k ih =>
    refine ⟨ih.2, ?_⟩
    rw [F, ih.1, ih.2, Nat.fib_add_two]
    push_cast
    ring

/-- No Fibonacci number is negative. -/
theorem F_nonneg (k : Nat) : 0 ≤ F k := by
  rw [(F_eq_fib k).1]
  exact Int.ofNat_nonneg _

/-- Each Fibonacci number is at most the next. -/
theorem F_le_succ (k : Nat) : F k ≤ F (k + 1) := by
  rw [(F_eq_fib k).1, (F_eq_fib k).2]
  exact_mod_cast Nat.fib_le_fib_succ

/-- From index 2 on each Fibonacci number is below the next. -/
theorem F_lt_succ (k : Nat) (hk : 2 ≤ k) : F k < F (k + 1) := by
  rw [(F_eq_fib k).1, (F_eq_fib k).2]
  exact_mod_cast Nat.fib_lt_fib_succ hk

/-- The Fibonacci numbers do not decrease. -/
theorem F_mono {j k : Nat} (h : j ≤ k) : F j ≤ F k := by
  rw [(F_eq_fib j).1, (F_eq_fib k).1]
  exact_mod_cast Nat.fib_mono h

/-- The i-th Fibonacci number is below `2 ^ i`. -/
theorem F_lt_two_pow : ∀ k : Nat, F k < 2 ^ k ∧ F (k + 1) < 2 ^ (k + 1) := by
  intro k
  induction k with
  | zero => exact ⟨by simp [F], by simp [F]⟩
  | succ k ih =>
    refine ⟨ih.2, ?_⟩
    have h1 := ih.1
    have h2 := ih.2
    rw [F]
    have e1 : (2 : Int) ^ (k + 1) = 2 * 2 ^ k := by ring
    have e2 : (2 : Int) ^ (k + 1 + 1) = 4 * 2 ^ k := by ring
    have hp : (0 : Int) < 2 ^ k := by positivity
    rw [e1] at h2
    rw [e2]
    omega

/-- The Fibonacci number of index 92. -/
theorem F_92 : F 92 = 7540113804746346429 := by
  rw [(F_eq_fib 92).1]
  norm_num

/-- The Fibonacci number of index 93. -/
theorem F_93 : F 93 = 12200160415121876738 := by
  rw [(F_eq_fib 93).1]
  norm_num

/-- What `sliceGet` reads from the list `F 0, ..., F (N - 1)` is `F i` at an
index `i` within bounds. -/
theorem sliceGet_fibs_inv (N : Nat) (i x : Int)
    (h : sliceGet ((List.range N).map F) i = some x) :
    0 ≤ i ∧ i < (N : Int) ∧ x = F i.toNat := by
  unfold sliceGet at h
  by_cases hc : 0 ≤ i ∧ i < (((List.range N).map F).length : Int)
  · rw [if_pos hc] at h
    have hlen : ((List.range N).map F).length = N := by simp
    rw [hlen] at hc
    have hi : i.toNat < N := by omega
    rw [List.getElem?_map, List.getElem?_range hi] at h
    simp at h
    exact ⟨hc.1, hc.2, h.symm⟩
  · rw [if_neg hc] at h
    cases h

/-- Bounds are all that `sliceGet` asks for. -/
theorem sliceGet_isSome (s : List Int) (i : Int) :
    (sliceGet s i).isSome = true ↔ (0 ≤ i ∧ i < (s.length : Int)) := by
  unfold sliceGet
  by_cases hc : 0 ≤ i ∧ i < (s.length : Int)
  · have hi : i.toNat < s.length := by omega
    simp [hc, List.getElem?_eq_getElem hi]
  · simp [hc]

/-- Bounds are all that `sliceSet` asks for. -/
theorem sliceSet_isSome (s : List Int) (i v : Int) :
    (sliceSet s i v).isSome = true ↔ (0 ≤ i ∧ i < (s.length : Int)) := by
  unfold sliceSet
  by_cases hc : 0 ≤ i ∧ i < (s.length : Int)
  · simp [hc]
  · simp [hc]

/-- The loop returns whatever the slice of length `N` holds, when entered at
an index of 2 or more with fuel for the tests of the condition that remain:
its accesses are within bounds and it ends. -/
theorem fibLoop_total (N : Nat) : ∀ (fuel k : Nat) (fib : List Int),
    fib.length = N → 2 ≤ k → N ≤ fuel + k →
    ∃ out, fibLoop (fuel + 1) (N : Int) (k : Int) fib = some out ∧ out.length = N := by
  intro fuel
  induction fuel with
  | zero =>
    intro k fib hlen hk hfuel
    have hnot : ¬ ((k : Int) < (N : Int)) := by omega
    exact ⟨fib, by simp [fibLoop, hnot], hlen⟩
  | succ fuel ih =>
    intro k fib hlen hk hfuel
    by_cases hkN : k < N
    · have hlt : ((k : Int) < (N : Int)) := by omega
      obtain ⟨a, ha⟩ := Option.isSome_iff_exists.1
        ((sliceGet_isSome fib ((k : Int) - 1)).2 ⟨by omega, by omega⟩)
      obtain ⟨b, hb⟩ := Option.isSome_iff_exists.1
        ((sliceGet_isSome fib ((k : Int) - 2)).2 ⟨by omega, by omega⟩)
      have hs := sliceSet_of_lt (a + b) (show k < fib.length by omega)
      obtain ⟨out, hout, hl⟩ := ih (k + 1) (fib.set k (a + b)) (by simp [hlen]) (by omega)
        (by omega)
      refine ⟨out, ?_, hl⟩
      rw [fibLoop]
      simp only [hlt, if_true, ha, hb, Option.bind_eq_bind, Option.some_bind, hs]
      exact_mod_cast hout
    · have hnot : ¬ ((k : Int) < (N : Int)) := by omega
      exact ⟨fib, by simp [fibLoop, hnot], hlen⟩

/-! ## More on the sequence generator -/

/-- The first `k` of the list `F 0, ..., F (N - 1)` are the list `F 0, ..., F (k - 1)`. -/
theorem take_fibs (k N : Nat) (h : k ≤ N) :
    ((List.range N).map F).take k = (List.range k).map F := by
  apply List.ext_getElem?
  intro j
  by_cases hj : j < k
  · rw [List.getElem?_take_of_lt hj, List.getElem?_map, List.getElem?_map,
      List.getElem?_range hj, List.getElem?_range (by omega)]
  · rw [List.getElem?_eq_none (by simp; omega), List.getElem?_eq_none (by simp; omega)]

/-- C11, as the code has it: for every integer n up to the limit 10000
(negative, zero or positive) `Fibonacci` returns a slice (of max(n, 0)
elements), so that every checked slice access it makes is within bounds and the
loop ends; for every integer n, if `Fibonacci(n)` panics then n is positive and
the panic is that of `make([]big.Int, n)`: once the allocation has succeeded
every slice access is within bounds and the loop ends; a checked read or write
succeeds exactly within the bounds of the slice; and the loop, entered at any
index of 2 or more on any slice of n elements, returns with its accesses within
bounds once it has fuel for the tests of its condition that remain. -/
theorem Fibonacci_total :
    (∀ n : Int, n ≤ 10000 →
      ∃ fib, Fibonacci n = some fib ∧ (fib.length : Int) = max n 0) ∧
    (∀ n : Int, Fibonacci n = none → 0 < n ∧ makeSlice n = none) ∧
    (∀ (s : List Int) (i : Int),
      (sliceGet s i).isSome = true ↔ (0 ≤ i ∧ i < (s.length : Int))) ∧
    (∀ (s : List Int) (i v : Int),
      (sliceSet s i v).isSome = true ↔ (0 ≤ i ∧ i < (s.length : Int))) ∧
    (∀ (N fuel k : Nat) (fib : List Int), fib.length = N → 2 ≤ k → N ≤ fuel + k →
      ∃ out, fibLoop (fuel + 1) (N : Int) (k : Int) fib = some out ∧ out.length = N) := by
  refine ⟨?_, makeSlice_of_Fibonacci_none, sliceGet_isSome, sliceSet_isSome,
    fun N => fibLoop_total N⟩
  intro n hle
  refine ⟨_, Fibonacci_eq n (by omega), ?_⟩
  simp only [List.length_map, List.length_range]
  omega

theorem Fibonacci_total_witness :
    (∃ fib, Fibonacci 6 = some fib ∧ (fib.length : Int) = max 6 0) ∧
    ((0 : Int) < 2 ^ 47 ∧ makeSlice (2 ^ 47) = none) ∧
    (∃ out, fibLoop (2 + 1) ((4 : Nat) : Int) ((2 : Nat) : Int) [0, 1, 0, 0] = some out ∧
      out.length = 4) :=
  ⟨Fibonacci_total.1 6 (by decide),
    Fibonacci_total.2.1 (2 ^ 47) (by decide),
    Fibonacci_total.2.2.2.2 4 2 2 [0, 1, 0, 0] (by decide) (by decide) (by decide)⟩

/-- C11, as stated, fails: at n = 2^47 `Fibonacci(n)` returns no result:
`make([]big.Int, n)` panics. -/
theorem Fibonacci_total_fails :
    Fibonacci (2 ^ 47) = none ∧ ¬ ∃ fib, Fibonacci (2 ^ 47) = some fib := by
  have h := Fibonacci_of_gt (2 ^ 47) (by norm_num)
  refine ⟨h, ?_⟩
  rintro ⟨fib, hfib⟩
  rw [h] at hfib
  cases hfib

/-- C12, as the code has it: for every integer n for which `Fibonacci(n)`
returns a slice, and it does for every n up to the limit 10000, and for every
index i with 0 ≤ i < n, element i of the slice is non-negative, and when
i + 1 < n it is at most element i + 1, and below it when i ≥ 2. -/
theorem Fibonacci_monotone :
    (∀ n i : Int, 0 ≤ i → i < n → n ≤ 10000 →
      ∃ fib x, Fibonacci n = some fib ∧ sliceGet fib i = some x ∧ 0 ≤ x ∧
        (i + 1 < n → ∃ y, sliceGet fib (i + 1) = some y ∧ x ≤ y ∧ (2 ≤ i → x < y))) ∧
    (∀ (n i : Int) (fib : List Int), Fibonacci n = some fib → 0 ≤ i → i < n →
      ∃ x, sliceGet fib i = some x ∧ 0 ≤ x ∧
        (i + 1 < n → ∃ y, sliceGet fib (i + 1) = some y ∧ x ≤ y ∧ (2 ≤ i → x < y))) := by
  have key : ∀ n i : Int, 0 ≤ i → i < n →
      ∃ x, sliceGet ((List.range n.toNat).map F) i = some x ∧ 0 ≤ x ∧
        (i + 1 < n → ∃ y, sliceGet ((List.range n.toNat).map F) (i + 1) = some y ∧ x ≤ y ∧
          (2 ≤ i → x < y)) := by
    intro n i h0 hi
    refine ⟨F i.toNat, sliceGet_fibs n i h0 hi, F_nonneg _, ?_⟩
    intro hi1
    have e : (i + 1).toNat = i.toNat + 1 := by omega
    refine ⟨F (i + 1).toNat, sliceGet_fibs n (i + 1) (by omega) hi1, ?_, ?_⟩
    · rw [e]
      exact F_le_succ _
    · intro h2
      rw [e]
      exact F_lt_succ _ (by omega)
  constructor
  · intro n i h0 hi hle
    obtain ⟨x, hx, hx0, hnext⟩ := key n i h0 hi
    exact ⟨_, x, Fibonacci_eq n (by omega), hx, hx0, hnext⟩
  · intro n i fib hfib h0 hi
    rw [Fibonacci_eq_of_some n fib hfib]
    exact key n i h0 hi

theorem Fibonacci_monotone_witness :
    (∃ fib x, Fibonacci 6 = some fib ∧ sliceGet fib 3 = some x ∧ 0 ≤ x ∧
      ((3 : Int) + 1 < 6 → ∃ y, sliceGet fib (3 + 1) = some y ∧ x ≤ y ∧
        ((2 : Int) ≤ 3 → x < y))) ∧
    (∃ x, sliceGet [0, 1, 1, 2] 2 = some x ∧ 0 ≤ x ∧
      ((2 : Int) + 1 < 4 → ∃ y, sliceGet [0, 1, 1, 2] (2 + 1) = some y ∧ x ≤ y ∧
        ((2 : Int) ≤ 2 → x < y))) :=
  ⟨Fibonacci_monotone.1 6 3 (by decide) (by decide) (by decide),
    Fibonacci_monotone.2 4 2 [0, 1, 1, 2] (by decide) (by decide) (by decide)⟩

/-- C12, as stated, fails: at n = 2^47 `Fibonacci(n)` has no element 0, so
none that is non-negative: `make([]big.Int, n)` panics and no slice is
returned. -/
theorem Fibonacci_monotone_fails :
    (0 : Int) < 2 ^ 47 ∧
    ¬ ∃ fib x, Fibonacci (2 ^ 47) = some fib ∧ sliceGet fib 0 = some x ∧ 0 ≤ x := by
  refine ⟨by norm_num, ?_⟩
  rintro ⟨fib, x, hfib, _⟩
  rw [Fibonacci_of_gt (2 ^ 47) (by norm_num)] at hfib
  cases hfib

/-- C13, as the code has it: the output is not reduced to 64 bits: for every
n ≥ 94 for which `Fibonacci(n)` returns a slice, and it does for every n up to
the limit 10000, element 93 of the slice is 12200160415121876738, which is above
2^63 - 1 (and is not the value -6246583658587674878 that 64-bit wrap-around
would give), while every element of index at most 92 is at most 2^63 - 1. -/
theorem Fibonacci_index_93 :
    (∀ n : Int, 94 ≤ n → n ≤ 10000 →
      ∃ fib, Fibonacci n = some fib ∧
        sliceGet fib 93 = some 12200160415121876738 ∧
        sliceGet fib 93 ≠ some ((12200160415121876738 : Int) - 2 ^ 64) ∧
        ∀ i : Int, 0 ≤ i → i ≤ 92 → ∃ x, sliceGet fib i = some x ∧ x ≤ 2 ^ 63 - 1) ∧
    (∀ (n : Int) (fib : List Int), Fibonacci n = some fib → 94 ≤ n →
      sliceGet fib 93 = some 12200160415121876738 ∧
      sliceGet fib 93 ≠ some ((12200160415121876738 : Int) - 2 ^ 64) ∧
      ∀ i : Int, 0 ≤ i → i ≤ 92 → ∃ x, sliceGet fib i = some x ∧ x ≤ 2 ^ 63 - 1) ∧
    (12200160415121876738 : Int) > 2 ^ 63 - 1 := by
  have key : ∀ n : Int, 94 ≤ n →
      sliceGet ((List.range n.toNat).map F) 93 = some 12200160415121876738 ∧
      sliceGet ((List.range n.toNat).map F) 93 ≠ some ((12200160415121876738 : Int) - 2 ^ 64) ∧
      ∀ i : Int, 0 ≤ i → i ≤ 92 →
        ∃ x, sliceGet ((List.range n.toNat).map F) i = some x ∧ x ≤ 2 ^ 63 - 1 := by
    intro n hn
    have h93 : sliceGet ((List.range n.toNat).map F) 93 = some 12200160415121876738 := by
      rw [sliceGet_fibs n 93 (by decide) (by omega)]
      exact congrArg some F_93
    refine ⟨h93, ?_, ?_⟩
    · rw [h93]
      intro h
      have h2 := Option.some.inj h
      norm_num at h2
    · intro i h0 h92
      refine ⟨F i.toNat, sliceGet_fibs n i h0 (by omega), ?_⟩
      have hm : F i.toNat ≤ F 92 := F_mono (by omega)
      rw [F_92] at hm
      have hb : (7540113804746346429 : Int) ≤ 2 ^ 63 - 1 := by norm_num
      exact le_trans hm hb
  refine ⟨?_, ?_, by norm_num⟩
  · intro n hn hle
    exact ⟨_, Fibonacci_eq n (by omega), key n hn⟩
  · intro n fib hfib hn
    rw [Fibonacci_eq_of_some n fib hfib]
    exact key n hn

theorem Fibonacci_index_93_witness :
    ∃ fib, Fibonacci 100 = some fib ∧
      sliceGet fib 93 = some 12200160415121876738 ∧
      sliceGet fib 93 ≠ some ((12200160415121876738 : Int) - 2 ^ 64) ∧
      ∀ i : Int, 0 ≤ i → i ≤ 92 → ∃ x, sliceGet fib i = some x ∧ x ≤ 2 ^ 63 - 1 :=
  Fibonacci_index_93.1 100 (by decide) (by decide)

/-- C13, as stated, fails: at n = 2^47, which is at least 94, `Fibonacci(n)`
has no element 93: `make([]big.Int, n)` panics and no slice is returned. -/
theorem Fibonacci_index_93_fails :
    (94 : Int) ≤ 2 ^ 47 ∧
    ¬ ∃ fib, Fibonacci (2 ^ 47) = some fib ∧
      sliceGet fib 93 = some 12200160415121876738 := by
  refine ⟨by norm_num, ?_⟩
  rintro ⟨fib, hfib, _⟩
  rw [Fibonacci_of_gt (2 ^ 47) (by norm_num)] at hfib
  cases hfib

/-- C15, as the code has it: prefix consistency: for all integers m ≤ n for
which `Fibonacci(m)` and `Fibonacci(n)` return slices, and they do for every
n up to the limit 10000, `Fibonacci(m)` has max(m, 0) elements, `Fibonacci(n)`
has max(n, 0), and `Fibonacci(m)` is the first max(m, 0) elements of
`Fibonacci(n)`: a longer request does not change the earlier terms. -/
theorem Fibonacci_prefix_consistency :
    (∀ m n : Int, m ≤ n → n ≤ 10000 →
      ∃ fm fn, Fibonacci m = some fm ∧ Fibonacci n = some fn ∧
        (fm.length : Int) = max m 0 ∧ (fn.length : Int) = max n 0 ∧
        fm = fn.take (max m 0).toNat) ∧
    (∀ (m n : Int) (fm fn : List Int), m ≤ n → Fibonacci m = some fm →
      Fibonacci n = some fn →
      (fm.length : Int) = max m 0 ∧ (fn.length : Int) = max n 0 ∧
      fm = fn.take (max m 0).toNat) := by
  have key : ∀ m n : Int, m ≤ n →
      (((List.range m.toNat).map F).length : Int) = max m 0 ∧
      (((List.range n.toNat).map F).length : Int) = max n 0 ∧
      (List.range m.toNat).map F = ((List.range n.toNat).map F).take (max m 0).toNat := by
    intro m n h
    have e : (max m 0).toNat = m.toNat := by omega
    refine ⟨?_, ?_, ?_⟩
    · simp only [List.length_map, List.length_range]
      omega
    · simp only [List.length_map, List.length_range]
      omega
    · rw [e, take_fibs m.toNat n.toNat (by omega)]
  constructor
  · intro m n h hle
    exact ⟨_, _, Fibonacci_eq m (by omega), Fibonacci_eq n (by omega), key m n h⟩
  · intro m n fm fn h hm hn
    rw [Fibonacci_eq_of_some m fm hm, Fibonacci_eq_of_some n fn hn]
    exact key m n h

theorem Fibonacci_prefix_consistency_witness :
    (∃ fm fn, Fibonacci 3 = some fm ∧ Fibonacci 8 = some fn ∧
      (fm.length : Int) = max 3 0 ∧ (fn.length : Int) = max 8 0 ∧
      fm = fn.take (max (3 : Int) 0).toNat) ∧
    ((([0, 1] : List Int).length : Int) = max 2 0 ∧
      (([0, 1, 1, 2] : List Int).length : Int) = max 4 0 ∧
      ([0, 1] : List Int) = ([0, 1, 1, 2] : List Int).take (max (2 : Int) 0).toNat) :=
  ⟨Fibonacci_prefix_consistency.1 3 8 (by decide) (by decide),
    Fibonacci_prefix_consistency.2 2 4 [0, 1] [0, 1, 1, 2] (by decide) (by decide) (by decide)⟩

/-- C15, as stated, fails: at m = 0 and n = 2^47, with m ≤ n, `Fibonacci(n)`
returns no slice of which `Fibonacci(m)` could be the first elements:
`make([]big.Int, n)` panics. -/
theorem Fibonacci_prefix_consistency_fails :
    (0 : Int) ≤ 2 ^ 47 ∧
    ¬ ∃ fm fn, Fibonacci 0 = some fm ∧ Fibonacci (2 ^ 47) = some fn ∧
      fm = fn.take (max (0 : Int) 0).toNat := by
  refine ⟨by norm_num, ?_⟩
  rintro ⟨fm, fn, _, hfn, _⟩
  rw [Fibonacci_of_gt (2 ^ 47) (by norm_num)] at hfn
  cases hfn

/-! ## More on the request handler -/

/-- A response with status 200 comes from the valid path: the path is "/" and
the first n value parses to an integer from 0 to 10000. -/
theorem getFibs_code_200 (format : String) (r : Request)
    (h : (getFibs format NewRecorder r).w.code = 200) :
    r.path = "/" ∧ ∃ v rest n, r.query.lookup "n" = some (v :: rest) ∧ Atoi v = some n ∧
      0 ≤ n ∧ n ≤ 10000 := by
  by_cases hpath : r.path = "/"
  · refine ⟨hpath, ?_⟩
    rcases hq : r.query.lookup "n" with _ | ⟨_ | ⟨v, rest⟩⟩
    · rw [getFibs, getFibsWith_usage Fibonacci format NewRecorder r hpath (Or.inl hq)] at h
      exact absurd h (by decide)
    · rw [getFibs, getFibsWith_usage Fibonacci format NewRecorder r hpath
        (Or.inr (Or.inl hq))] at h
      exact absurd h (by decide)
    · by_cases hv : v = ""
      · subst hv
        rw [getFibs, getFibsWith_usage Fibonacci format NewRecorder r hpath
          (Or.inr (Or.inr ⟨rest, hq⟩))] at h
        exact absurd h (by decide)
      · rcases hparse : Atoi v with _ | n
        · rw [getFibs, getFibsWith_outOfRange Fibonacci format NewRecorder r v rest hpath hq hv
            (Or.inl hparse)] at h
          exact absurd h (by decide)
        · by_cases hn : 0 ≤ n ∧ n ≤ 10000
          · exact ⟨v, rest, n, rfl, hparse, hn.1, hn.2⟩
          · rw [getFibs, getFibsWith_outOfRange Fibonacci format NewRecorder r v rest hpath hq
              hv (Or.inr ⟨n, hparse, by omega⟩)] at h
            exact absurd h (by decide)
  · rw [getFibs, getFibsWith_notFound Fibonacci format NewRecorder r hpath] at h
    exact absurd h (by decide)

/-- C14: the limit bounds every successful computation: when `getFibs` answers
a request with status 200, the first n value parses to an integer n, the
response is the rendering of the slice that `Fibonacci(n)` returns, that slice
has at most 10000 terms, and its term of index i is below 2^i, hence below
2^10000. -/
theorem getFibs_ok_bounded (format : String) (r : Request)
    (h : (getFibs format NewRecorder r).w.code = 200) :
    ∃ v rest n fib, r.query.lookup "n" = some (v :: rest) ∧ Atoi v = some n ∧
      Fibonacci n = some fib ∧
      getFibs format NewRecorder r =
        (if format = "json" then ⟨printFibsToJson NewRecorder fib, none⟩
         else ⟨printFibsPlaintext NewRecorder fib, none⟩) ∧
      fib.length ≤ 10000 ∧
      ∀ i : Int, 0 ≤ i → i < (fib.length : Int) →
        ∃ x, sliceGet fib i = some x ∧ x < 2 ^ i.toNat ∧ x < 2 ^ 10000 := by
  obtain ⟨hpath, v, rest, n, hq, hparse, h0, hle⟩ := getFibs_code_200 format r h
  refine ⟨v, rest, n, _, hq, hparse, Fibonacci_eq n (by omega),
    getFibs_valid format NewRecorder r v rest n hpath hq hparse h0 hle, ?_, ?_⟩
  · rw [List.length_map, List.length_range]
    omega
  · intro i hi0 hi
    rw [List.length_map, List.length_range] at hi
    have hin : i < n := by omega
    refine ⟨F i.toNat, sliceGet_fibs n i hi0 hin, (F_lt_two_pow i.toNat).1, ?_⟩
    have hpow : (2 : Int) ^ i.toNat ≤ 2 ^ 10000 :=
      pow_le_pow_right₀ (by norm_num) (by omega)
    exact lt_of_lt_of_le (F_lt_two_pow i.toNat).1 hpow

theorem getFibs_ok_bounded_witness :
    ∃ v rest n fib, (⟨"/", [("n", ["5"])]⟩ : Request).query.lookup "n" = some (v :: rest) ∧
      Atoi v = some n ∧ Fibonacci n = some fib ∧
      getFibs "json" NewRecorder ⟨"/", [("n", ["5"])]⟩ =
        (if "json" = "json" then ⟨printFibsToJson NewRecorder fib, none⟩
         else ⟨printFibsPlaintext NewRecorder fib, none⟩) ∧
      fib.length ≤ 10000 ∧
      ∀ i : Int, 0 ≤ i → i < (fib.length : Int) →
        ∃ x, sliceGet fib i = some x ∧ x < 2 ^ i.toNat ∧ x < 2 ^ 10000 :=
  getFibs_ok_bounded "json" ⟨"/", [("n", ["5"])]⟩ (by decide)

/-- Any format other than "json" is handled as "plaintext" is. -/
theorem getFibsWith_fallback (gen : Int → Option (List Int)) (format : String)
    (w : ResponseWriter) (r : Request) (hf : format ≠ "json") :
    getFibsWith gen format w r = getFibsWith gen "plaintext" w r := by
  have hp : ¬ ("plaintext" = "json") := by decide
  unfold getFibsWith
  simp only [hf, hp, if_false]

/-- C16: format selection falls back to plaintext: for every request (so for
every valid one) and every format other than exactly "json", as the empty
string and "JSON", `getFibs` gives the response it gives with the format
"plaintext"; and on a valid request every format gives status 200 without a
fault. -/
theorem getFibs_format_fallback :
    (∀ (format : String) (w : ResponseWriter) (r : Request), format ≠ "json" →
      getFibs format w r = getFibs "plaintext" w r) ∧
    (∀ (format : String) (r : Request) (v : String) (rest : List String) (n : Int),
      r.path = "/" → r.query.lookup "n" = some (v :: rest) → Atoi v = some n →
      0 ≤ n → n ≤ 10000 →
      (getFibs format NewRecorder r).fault = none ∧
      (getFibs format NewRecorder r).w.code = 200) ∧
    (∀ (w : ResponseWriter) (r : Request),
      getFibs "" w r = getFibs "plaintext" w r ∧
      getFibs "JSON" w r = getFibs "plaintext" w r) := by
  refine ⟨?_, ?_, ?_⟩
  · intro format w r hf
    exact getFibsWith_fallback Fibonacci format w r hf
  · intro format r v rest n hpath hq hparse h0 hle
    rw [getFibs_valid format NewRecorder r v rest n hpath hq hparse h0 hle]
    by_cases hf : format = "json"
    · rw [if_pos hf, printFibsToJson_new]
      exact ⟨rfl, rfl⟩
    · rw [if_neg hf, printFibsPlaintext_new]
      exact ⟨rfl, rfl⟩
  · intro w r
    exact ⟨getFibsWith_fallback Fibonacci "" w r (by decide),
      getFibsWith_fallback Fibonacci "JSON" w r (by decide)⟩

theorem getFibs_format_fallback_witness :
    getFibs "xml" NewRecorder ⟨"/", [("n", ["5"])]⟩
      = getFibs "plaintext" NewRecorder ⟨"/", [("n", ["5"])]⟩ ∧
    (getFibs "xml" NewRecorder ⟨"/", [("n", ["5"])]⟩).fault = none ∧
    (getFibs "xml" NewRecorder ⟨"/", [("n", ["5"])]⟩).w.code = 200 :=
  ⟨getFibs_format_fallback.1 "xml" NewRecorder ⟨"/", [("n", ["5"])]⟩ (by decide),
    getFibs_format_fallback.2.1 "xml" ⟨"/", [("n", ["5"])]⟩ "5" [] 5 (by decide) (by decide)
      (by decide) (by decide) (by decide)⟩

/-- The handler reads the path and the first n value, nothing else of the
request. -/
theorem getFibsWith_first (gen : Int → Option (List Int)) (format : String)
    (w : ResponseWriter) (r r1 : Request) (v : String) (rest rest1 : List String)
    (hpath : r1.path = r.path) (hq : r.query.lookup "n" = some (v :: rest))
    (hq1 : r1.query.lookup "n" = some (v :: rest1)) :
    getFibsWith gen format w r = getFibsWith gen format w r1 := by
  unfold getFibsWith
  simp only [hpath, hq, hq1]

/-- C18: when the query carries several values v1, v2, ... for n, the response
of `getFibs` is its response to the request with the same path and the single
value v1: the later values, valid or not, are ignored. -/
theorem getFibs_first_value :
    (∀ (format : String) (w : ResponseWriter) (r : Request) (v : String)
      (rest : List String), r.query.lookup "n" = some (v :: rest) →
      getFibs format w r = getFibs format w ⟨r.path, [("n", [v])]⟩) ∧
    getFibs "plaintext" NewRecorder ⟨"/", [("n", ["5", "abc", "7"])]⟩
      = getFibs "plaintext" NewRecorder ⟨"/", [("n", ["5"])]⟩ ∧
    getFibs "plaintext" NewRecorder ⟨"/", [("n", ["abc", "5"])]⟩
      = getFibs "plaintext" NewRecorder ⟨"/", [("n", ["abc"])]⟩ := by
  refine ⟨?_, by decide, by decide⟩
  intro format w r v rest hq
  exact getFibsWith_first Fibonacci format w r ⟨r.path, [("n", [v])]⟩ v rest [] rfl hq
    (by simp [List.lookup])

theorem getFibs_first_value_witness :
    getFibs "json" NewRecorder ⟨"/", [("n", ["3", "99999"])]⟩
      = getFibs "json" NewRecorder
          ⟨(⟨"/", [("n", ["3", "99999"])]⟩ : Request).path, [("n", ["3"])]⟩ :=
  getFibs_first_value.1 "json" NewRecorder ⟨"/", [("n", ["3", "99999"])]⟩ "3" ["99999"]
    (by decide)

/-! ## Lemmas on `Atoi` -/

/-- The value of a decimal digit. -/
theorem digitVal_of_mem {c : Char} (h : c ∈ decimalDigits) :
    digitVal c = some (c.toNat - '0'.toNat) ∧ c ≠ '-' ∧ c ≠ '+' := by
  simp only [decimalDigits, List.mem_cons, List.mem_singleton, List.not_mem_nil, or_false] at h
  rcases h with rfl | rfl | rfl | rfl | rfl | rfl | rfl | rfl | rfl | rfl <;> decide

/-- On a run of decimal digits `parseDigits` is the positional value. -/
theorem parseDigits_digits : ∀ (ds : List Char) (acc : Nat), (∀ c ∈ ds, c ∈ decimalDigits) →
    parseDigits ds acc = some (ds.foldl (fun acc c => acc * 10 + (c.toNat - '0'.toNat)) acc) := by
  intro ds
  induction ds with
  | nil => intro acc _; rfl
  | cons c cs ih =>
    intro acc h
    have hc := (digitVal_of_mem (h c (List.mem_cons_self _ _))).1
    rw [parseDigits, hc]
    exact ih _ (fun d hd => h d (List.mem_cons_of_mem _ hd))

/-- A character that is no digit makes `parseDigits` fail. -/
theorem parseDigits_none : ∀ (ds : List Char) (acc : Nat) (c : Char), c ∈ ds →
    digitVal c = none → parseDigits ds acc = none := by
  intro ds
  induction ds with
  | nil => intro acc c h; cases h
  | cons d ds ih =>
    intro acc c h hc
    rcases List.mem_cons.1 h with rfl | h
    · rw [parseDigits, hc]
    · rw [parseDigits]
      cases hd : digitVal d with
      | none => rfl
      | some x => exact ih _ c h hc

/-- What `Atoi` does on the digits once the sign is taken off. -/
theorem Atoi_parts (v : String) (sign ds : List Char) (hv : v.data = sign ++ ds)
    (hs : sign = [] ∨ sign = ['+'] ∨ sign = ['-']) (hne : ds ≠ [])
    (hd : ∀ c ∈ ds, c ∈ decimalDigits) :
    Atoi v = if -(2 : Int) ^ 63 ≤ denoted sign ds ∧ denoted sign ds ≤ (2 : Int) ^ 63 - 1
      then some (denoted sign ds) else none := by
  obtain ⟨d, ds1, rfl⟩ : ∃ d ds1, ds = d :: ds1 := by
    cases ds with
    | nil => exact absurd rfl hne
    | cons d ds1 => exact ⟨d, ds1, rfl⟩
  have hp := parseDigits_digits (d :: ds1) 0 hd
  have hd0 := digitVal_of_mem (hd d (List.mem_cons_self _ _))
  rcases hs with rfl | rfl | rfl
  · simp only [List.nil_append] at hv
    unfold Atoi
    rw [hv]
    split
    · rename_i heq
      exact absurd (List.cons.inj heq).1 hd0.2.1
    · rename_i heq
      exact absurd (List.cons.inj heq).1 hd0.2.2
    · simp [hp, denoted, decimalValue]
  · unfold Atoi
    rw [hv]
    simp [hp, denoted, decimalValue]
  · unfold Atoi
    rw [hv]
    simp [hp, denoted, decimalValue]

/-- A character that is not a decimal digit has no digit value. -/
theorem digitVal_none_of_not_mem {c : Char} (h : c ∉ decimalDigits) : digitVal c = none := by
  unfold digitVal
  by_cases hr : 48 ≤ c.toNat ∧ c.toNat ≤ 57
  · exfalso
    apply h
    have hc : c = Char.ofNat c.toNat := (Char.ofNat_toNat c).symm
    rw [hc]
    generalize c.toNat = n at hr
    obtain ⟨h1, h2⟩ := hr
    interval_cases n <;> decide
  · rw [if_neg hr]

/-- A value with a character that is neither a decimal digit nor a sign does
not parse. -/
theorem Atoi_none_of_char (v : String) (c : Char) (hc : c ∈ v.data)
    (hd : c ∉ decimalDigits) (hplus : c ≠ '+') (hminus : c ≠ '-') : Atoi v = none := by
  have hval := digitVal_none_of_not_mem hd
  cases hv : v.data with
  | nil => rw [hv] at hc; cases hc
  | cons a as =>
    rw [hv] at hc
    by_cases ha : a = '-'
    · subst ha
      have hmem : c ∈ as := by
        rcases List.mem_cons.1 hc with h | h
        · exact absurd h hminus
        · exact h
      have hp := parseDigits_none as 0 c hmem hval
      cases as with
      | nil => cases hmem
      | cons b bs => simp [Atoi, hv, hp]
    · by_cases hb : a = '+'
      · subst hb
        have hmem : c ∈ as := by
          rcases List.mem_cons.1 hc with h | h
          · exact absurd h hplus
          · exact h
        have hp := parseDigits_none as 0 c hmem hval
        cases as with
        | nil => cases hmem
        | cons b bs => simp [Atoi, hv, hp]
      · have hp := parseDigits_none (a :: as) 0 c hc hval
        unfold Atoi
        rw [hv]
        split
        · rename_i heq
          exact absurd (List.cons.inj heq).1 ha
        · rename_i heq
          exact absurd (List.cons.inj heq).1 hb
        · simp [hp]

/-- The response to a value written as an optional sign and decimal digits is
the response to the integer it denotes. -/
theorem getFibs_wellformed (format : String) (r : Request) (v : String)
    (rest : List String) (sign ds : List Char) (hpath : r.path = "/")
    (hq : r.query.lookup "n" = some (v :: rest)) (hv : v.data = sign ++ ds)
    (hs : sign = [] ∨ sign = ['+'] ∨ sign = ['-']) (hne : ds ≠ [])
    (hd : ∀ c ∈ ds, c ∈ decimalDigits) :
    getFibs format NewRecorder r =
      if 0 ≤ denoted sign ds ∧ denoted sign ds ≤ 10000 then
        (if format = "json" then
          ⟨printFibsToJson NewRecorder ((List.range (denoted sign ds).toNat).map F), none⟩
         else ⟨printFibsPlaintext NewRecorder ((List.range (denoted sign ds).toNat).map F), none⟩)
      else
        ⟨(NewRecorder.WriteHeader StatusUnprocessableEntity).Write
          "Error: n must be a positive integer between 0 and 10000", none⟩ := by
  have hA := Atoi_parts v sign ds hv hs hne hd
  have hvne : v ≠ "" := by
    intro h
    rw [h] at hv
    have hnil : sign ++ ds = [] := hv.symm
    exact hne (List.append_eq_nil.1 hnil).2
  by_cases hr : -(2 : Int) ^ 63 ≤ denoted sign ds ∧ denoted sign ds ≤ (2 : Int) ^ 63 - 1
  · rw [if_pos hr] at hA
    by_cases hn : 0 ≤ denoted sign ds ∧ denoted sign ds ≤ 10000
    · rw [if_pos hn]
      exact getFibs_valid format NewRecorder r v rest _ hpath hq hA hn.1 hn.2
    · rw [if_neg hn, getFibs]
      exact getFibsWith_outOfRange Fibonacci format NewRecorder r v rest hpath hq hvne
        (Or.inr ⟨_, hA, by omega⟩)
  · rw [if_neg hr] at hA
    have hn : ¬ (0 ≤ denoted sign ds ∧ denoted sign ds ≤ 10000) := by
      intro h
      apply hr
      constructor
      · have : -(2 : Int) ^ 63 ≤ 0 := by norm_num
        omega
      · have : (10000 : Int) ≤ 2 ^ 63 - 1 := by norm_num
        omega
    rw [if_neg hn, getFibs]
    exact getFibsWith_outOfRange Fibonacci format NewRecorder r v rest hpath hq hvne
      (Or.inl hA)

/-- The status of the response to a value written as an optional sign and
decimal digits. -/
theorem getFibs_wellformed_code (format : String) (r : Request) (v : String)
    (rest : List String) (sign ds : List Char) (hpath : r.path = "/")
    (hq : r.query.lookup "n" = some (v :: rest)) (hv : v.data = sign ++ ds)
    (hs : sign = [] ∨ sign = ['+'] ∨ sign = ['-']) (hne : ds ≠ [])
    (hd : ∀ c ∈ ds, c ∈ decimalDigits) :
    (getFibs format NewRecorder r).w.code =
      if 0 ≤ denoted sign ds ∧ denoted sign ds ≤ 10000 then 200 else 422 := by
  rw [getFibs_wellformed format r v rest sign ds hpath hq hv hs hne hd]
  by_cases hn : 0 ≤ denoted sign ds ∧ denoted sign ds ≤ 10000
  · rw [if_pos hn, if_pos hn]
    by_cases hf : format = "json"
    · rw [if_pos hf, printFibsToJson_new]
    · rw [if_neg hf, printFibsPlaintext_new]
  · rw [if_neg hn, if_neg hn]
    rfl

/-- Two values written as an optional sign and decimal digits that denote the
same integer get the same response. -/
theorem getFibs_same_denoted (format : String) (r r1 : Request) (v v1 : String)
    (rest rest1 : List String) (sign ds sign1 ds1 : List Char)
    (hpath : r.path = "/") (hq : r.query.lookup "n" = some (v :: rest))
    (hv : v.data = sign ++ ds) (hs : sign = [] ∨ sign = ['+'] ∨ sign = ['-'])
    (hne : ds ≠ []) (hd : ∀ c ∈ ds, c ∈ decimalDigits)
    (hpath1 : r1.path = "/") (hq1 : r1.query.lookup "n" = some (v1 :: rest1))
    (hv1 : v1.data = sign1 ++ ds1) (hs1 : sign1 = [] ∨ sign1 = ['+'] ∨ sign1 = ['-'])
    (hne1 : ds1 ≠ []) (hd1 : ∀ c ∈ ds1, c ∈ decimalDigits)
    (heq : denoted sign1 ds1 = denoted sign ds) :
    getFibs format NewRecorder r1 = getFibs format NewRecorder r := by
  rw [getFibs_wellformed format r v rest sign ds hpath hq hv hs hne hd,
    getFibs_wellformed format r1 v1 rest1 sign1 ds1 hpath1 hq1 hv1 hs1 hne1 hd1, heq]

/-- C17: the integer parse is lenient about sign and leading zeros: for path
"/", a first n value written as an optional '+' or '-' and one or more decimal
digits is handled as the integer it denotes: `Atoi` returns that integer when
it is in the 64-bit range, the status is 200 exactly when the integer is from 0
to 10000 and 422 otherwise, and two such values that denote the same integer
get the same response; so "+5" and "005" get the response of "5", and "-0" the
response of "0", with status 200; a value with a character that is neither a
decimal digit nor a sign (as a space, '.', '_' or a letter) gets status 422. -/
theorem getFibs_lenient_parse :
    (∀ (format : String) (r : Request) (v : String) (rest : List String)
      (sign ds : List Char), r.path = "/" → r.query.lookup "n" = some (v :: rest) →
      v.data = sign ++ ds → (sign = [] ∨ sign = ['+'] ∨ sign = ['-']) → ds ≠ [] →
      (∀ c ∈ ds, c ∈ decimalDigits) →
      ((-(2 : Int) ^ 63 ≤ denoted sign ds ∧ denoted sign ds ≤ (2 : Int) ^ 63 - 1) →
        Atoi v = some (denoted sign ds)) ∧
      ((getFibs format NewRecorder r).w.code = 200 ↔
        (0 ≤ denoted sign ds ∧ denoted sign ds ≤ 10000)) ∧
      ((getFibs format NewRecorder r).w.code = 422 ↔
        ¬ (0 ≤ denoted sign ds ∧ denoted sign ds ≤ 10000)) ∧
      (∀ (r1 : Request) (v1 : String) (rest1 : List String) (sign1 ds1 : List Char),
        r1.path = "/" → r1.query.lookup "n" = some (v1 :: rest1) →
        v1.data = sign1 ++ ds1 → (sign1 = [] ∨ sign1 = ['+'] ∨ sign1 = ['-']) → ds1 ≠ [] →
        (∀ c ∈ ds1, c ∈ decimalDigits) → denoted sign1 ds1 = denoted sign ds →
        getFibs format NewRecorder r1 = getFibs format NewRecorder r)) ∧
    (∀ format : String,
      getFibs format NewRecorder ⟨"/", [("n", ["+5"])]⟩
        = getFibs format NewRecorder ⟨"/", [("n", ["5"])]⟩ ∧
      getFibs format NewRecorder ⟨"/", [("n", ["005"])]⟩
        = getFibs format NewRecorder ⟨"/", [("n", ["5"])]⟩ ∧
      getFibs format NewRecorder ⟨"/", [("n", ["-0"])]⟩
        = getFibs format NewRecorder ⟨"/", [("n", ["0"])]⟩ ∧
      (getFibs format NewRecorder ⟨"/", [("n", ["-0"])]⟩).w.code = 200) ∧
    (∀ (format : String) (r : Request) (v : String) (rest : List String) (c : Char),
      r.path = "/" → r.query.lookup "n" = some (v :: rest) → c ∈ v.data →
      c ∉ decimalDigits → c ≠ '+' → c ≠ '-' →
      (getFibs format NewRecorder r).w.code = 422 ∧
      (getFibs format NewRecorder r).w.body
        = "Error: n must be a positive integer between 0 and 10000") ∧
    (∀ format : String,
      (getFibs format NewRecorder ⟨"/", [("n", ["5 "])]⟩).w.code = 422 ∧
      (getFibs format NewRecorder ⟨"/", [("n", ["1.5"])]⟩).w.code = 422 ∧
      (getFibs format NewRecorder ⟨"/", [("n", ["1_000"])]⟩).w.code = 422 ∧
      (getFibs format NewRecorder ⟨"/", [("n", ["5a"])]⟩).w.code = 422) := by
  have hbad : ∀ (format : String) (r : Request) (v : String) (rest : List String) (c : Char),
      r.path = "/" → r.query.lookup "n" = some (v :: rest) → c ∈ v.data →
      c ∉ decimalDigits → c ≠ '+' → c ≠ '-' →
      getFibs format NewRecorder r =
        ⟨(NewRecorder.WriteHeader StatusUnprocessableEntity).Write
          "Error: n must be a positive integer between 0 and 10000", none⟩ := by
    intro format r v rest c hpath hq hc hd hplus hminus
    have hvne : v ≠ "" := by
      intro h
      rw [h] at hc
      cases hc
    exact getFibsWith_outOfRange Fibonacci format NewRecorder r v rest hpath hq hvne
      (Or.inl (Atoi_none_of_char v c hc hd hplus hminus))
  refine ⟨?_, ?_, ?_, ?_⟩
  · intro format r v rest sign ds hpath hq hv hs hne hd
    have hcode := getFibs_wellformed_code format r v rest sign ds hpath hq hv hs hne hd
    refine ⟨?_, ?_, ?_, ?_⟩
    · intro hr
      rw [Atoi_parts v sign ds hv hs hne hd, if_pos hr]
    · rw [hcode]
      by_cases hn : 0 ≤ denoted sign ds ∧ denoted sign ds ≤ 10000
      · simp [hn]
      · simp [hn]
    · rw [hcode]
      by_cases hn : 0 ≤ denoted sign ds ∧ denoted sign ds ≤ 10000
      · simp [hn]
      · simp [hn]
    · intro r1 v1 rest1 sign1 ds1 hpath1 hq1 hv1 hs1 hne1 hd1 heq
      exact getFibs_same_denoted format r r1 v v1 rest rest1 sign ds sign1 ds1 hpath hq hv hs
        hne hd hpath1 hq1 hv1 hs1 hne1 hd1 heq
  · intro format
    refine ⟨?_, ?_, ?_, ?_⟩
    · exact getFibs_same_denoted format ⟨"/", [("n", ["5"])]⟩ ⟨"/", [("n", ["+5"])]⟩ "5" "+5"
        [] [] [] ['5'] ['+'] ['5'] rfl (by decide) (by decide) (by decide) (by decide)
        (by decide) rfl (by decide) (by decide) (by decide) (by decide) (by decide) (by decide)
    · exact getFibs_same_denoted format ⟨"/", [("n", ["5"])]⟩ ⟨"/", [("n", ["005"])]⟩ "5" "005"
        [] [] [] ['5'] [] ['0', '0', '5'] rfl (by decide) (by decide) (by decide) (by decide)
        (by decide) rfl (by decide) (by decide) (by decide) (by decide) (by decide) (by decide)
    · exact getFibs_same_denoted format ⟨"/", [("n", ["0"])]⟩ ⟨"/", [("n", ["-0"])]⟩ "0" "-0"
        [] [] [] ['0'] ['-'] ['0'] rfl (by decide) (by decide) (by decide) (by decide)
        (by decide) rfl (by decide) (by decide) (by decide) (by decide) (by decide) (by decide)
    · rw [getFibs_wellformed_code format ⟨"/", [("n", ["-0"])]⟩ "-0" [] ['-'] ['0'] rfl
        (by decide) (by decide) (by decide) (by decide) (by decide)]
      decide
  · intro format r v rest c hpath hq hc hd hplus hminus
    rw [hbad format r v rest c hpath hq hc hd hplus hminus]
    exact ⟨rfl, rfl⟩
  · intro format
    refine ⟨?_, ?_, ?_, ?_⟩
    · rw [hbad format ⟨"/", [("n", ["5 "])]⟩ "5 " [] ' ' rfl (by decide) (by decide)
        (by decide) (by decide) (by decide)]
      rfl
    · rw [hbad format ⟨"/", [("n", ["1.5"])]⟩ "1.5" [] '.' rfl (by decide) (by decide)
        (by decide) (by decide) (by decide)]
      rfl
    · rw [hbad format ⟨"/", [("n", ["1_000"])]⟩ "1_000" [] '_' rfl (by decide) (by decide)
        (by decide) (by decide) (by decide)]
      rfl
    · rw [hbad format ⟨"/", [("n", ["5a"])]⟩ "5a" [] 'a' rfl (by decide) (by decide)
        (by decide) (by decide) (by decide)]
      rfl

theorem getFibs_lenient_parse_witness :
    (getFibs "plaintext" NewRecorder ⟨"/", [("n", ["+007"])]⟩).w.code = 200 ↔
      (0 ≤ denoted ['+'] ['0', '0', '7'] ∧ denoted ['+'] ['0', '0', '7'] ≤ 10000) :=
  (getFibs_lenient_parse.1 "plaintext" ⟨"/", [("n", ["+007"])]⟩ "+007" [] ['+']
    ['0', '0', '7'] (by decide) (by decide) (by decide) (by decide) (by decide)
    (by decide)).2.1

end GtHome
